import Mathlib

/-!
Verification of the Product-Management-API request pipeline.

This file gives a shallow embedding, in Lean 4, of the parts of the
TypeScript/Express/Mongoose service that the specification talks about:

* `src/utils/generateProductCode.ts` — the longest-increasing-run scan and
  the product-code composition;
* `src/controllers/product.ts` — `calculatePricing`, `createProduct`,
  `getProducts`, `getProductById`, `updateProduct`, `deleteProduct`;
* `src/controllers/category.ts` — the category CRUD handlers;
* `src/middleware/validation.ts` — the Zod schemas and the `validate`
  middleware factory;
* `src/middleware/errorHandler.ts` — `AppError`, `errorHandler`,
  `determineErrorType` and the error creators;
* the routers, which decide which middleware guards which endpoint.

JavaScript numbers are modelled with `ℚ` (the arithmetic in the service is
exact on the reachable inputs, except where noted); the document store is a
pair of in-memory lists with the two unique indexes the Mongoose schemas
declare.  `while` loops are translated as fuel recursion where the fuel is an
upper bound on the remaining iteration count, so that every definition stays
executable by the kernel.
-/

/-! ## Code generator (`src/utils/generateProductCode.ts`) -/

/-- JS string indexing `str[i]`.  Out-of-range access yields `undefined`; every
comparison against `undefined` is false, and the source only compares in
bounds except at `right = 0`, which it guards by the `0 < right` conjunct
below.  The default character is irrelevant. -/
def jsCharAt (l : List Char) (i : ℕ) : Char := l.getD i (Char.ofNat 0)

/-- JS `str.substring(a, b)` for `0 ≤ a ≤ b` (the only case reached). -/
def jsSubstring (l : List Char) (a b : ℕ) : List Char := (l.drop a).take (b - a)

/-- The `while` loop of `findLongestIncreasingSubstringsLength`.  State:
`left : Int` (starts at `-1`), `right : ℕ`, accumulated `maxLen`.  The JS
condition `str[right] > str[right - 1]` is false at `right = 0` because
`str[-1]` is `undefined`.  `fuel` bounds the remaining iterations;
`l.length + 1 - right` always suffices, and on exhaustion we fall through to
the post-loop `Math.max` update exactly as the loop exit does. -/
def lenLoop (l : List Char) : ℕ → Int → ℕ → ℕ → ℕ
  | 0, left, right, maxLen => Nat.max maxLen (((right : Int) - left - 1).toNat)
  | fuel + 1, left, right, maxLen =>
    if right < l.length then
      if 0 < right ∧ jsCharAt l (right - 1) < jsCharAt l right then
        lenLoop l fuel left (right + 1) maxLen
      else
        lenLoop l fuel ((right : Int) - 1) (right + 1)
          (Nat.max maxLen (((right : Int) - left - 1).toNat))
    else
      Nat.max maxLen (((right : Int) - left - 1).toNat)

/-- Model of `findLongestIncreasingSubstringsLength` from the source. -/
def findLongestIncreasingSubstringsLength (str : String) : ℕ :=
  lenLoop str.data (str.data.length + 1) (-1) 0 0

/-- Result record of `findLongestIncreasingSubstrings`:
`{ substring, startIndex, endIndex }`, initialised to `("", -1, 0)`. -/
structure RunsResult where
  substring : String
  startIndex : Int
  endIndex : Int
deriving DecidableEq, Repr

/-- The collecting `while` loop of `findLongestIncreasingSubstrings`.  On each
run boundary with `right - left - 1 === maxLength` it appends
`lowerStr.substring(left + 1, right)` to the accumulator, sets `startIndex`
if still `-1`, and overwrites `endIndex` with `right - 1`; the loop tail and
the post-loop code perform the same update (the source's doubled `if` after
the loop is redundant and collapses to one check). -/
def colLoop (l : List Char) (maxLen : ℕ) :
    ℕ → Int → ℕ → List Char → Int → Int → List Char × Int × Int
  | 0, left, right, acc, startIdx, endIdx =>
    if ((right : Int) - left - 1) = (maxLen : Int) then
      (acc ++ jsSubstring l (left + 1).toNat right,
        (if startIdx = -1 then left + 1 else startIdx), (right : Int) - 1)
    else (acc, startIdx, endIdx)
  | fuel + 1, left, right, acc, startIdx, endIdx =>
    if right < l.length then
      if 0 < right ∧ jsCharAt l (right - 1) < jsCharAt l right then
        colLoop l maxLen fuel left (right + 1) acc startIdx endIdx
      else
        if ((right : Int) - left - 1) = (maxLen : Int) then
          colLoop l maxLen fuel ((right : Int) - 1) (right + 1)
            (acc ++ jsSubstring l (left + 1).toNat right)
            (if startIdx = -1 then left + 1 else startIdx) ((right : Int) - 1)
        else
          colLoop l maxLen fuel ((right : Int) - 1) (right + 1) acc startIdx endIdx
    else
      if ((right : Int) - left - 1) = (maxLen : Int) then
        (acc ++ jsSubstring l (left + 1).toNat right,
          (if startIdx = -1 then left + 1 else startIdx), (right : Int) - 1)
      else (acc, startIdx, endIdx)

/-- Model of `String.prototype.toLowerCase`, modelled characterwise (all inputs in the
claims are ASCII, where JS and `Char.toLower` agree). -/
def jsToLower (s : String) : String := ⟨s.data.map Char.toLower⟩

/-- Model of `findLongestIncreasingSubstrings` from the source: lower-case the name,
compute the maximal run length, then collect every tying run. -/
def findLongestIncreasingSubstrings (str : String) : RunsResult :=
  let lowerStr := jsToLower str
  let maxLength := findLongestIncreasingSubstringsLength lowerStr
  let r := colLoop lowerStr.data maxLength (lowerStr.data.length + 1) (-1) 0 [] (-1) 0
  { substring := ⟨r.1⟩, startIndex := r.2.1, endIndex := r.2.2 }

/-- The part of the generated code after the hash-and-time head:
`` `-${startIndex}${substring}${endIndex}` ``. -/
def codeTail (productName : String) : String :=
  let r := findLongestIncreasingSubstrings productName
  "-" ++ toString r.startIndex ++ r.substring ++ toString r.endIndex

/-- Model of `generateProductCode`.  The MD5 fingerprint (first 7 hex chars) and the
millisecond timestamp are environment inputs and are passed in as the strings
they interpolate to. -/
def generateProductCode (hash7 timeStr : String) (productName : String) : String :=
  hash7 ++ timeStr ++ codeTail productName

/-! ### Specification side: maximal strictly-increasing run decomposition

Modelled from the spec's words: "find the longest contiguous run of strictly
lexicographically increasing characters ... If multiple runs tie for longest,
concatenate all tying runs in order of appearance, and record the start index
of the first and the end index of the last."  These definitions exist to be
compared with the loop implementation above. -/

/-- Longest strictly-increasing continuation of a run whose last character is
`c`: returns the continuation and the unconsumed remainder. -/
def incRunTake (c : Char) : List Char → List Char × List Char
  | [] => ([], [])
  | d :: ds =>
    if c < d then
      let p := incRunTake d ds
      (d :: p.1, p.2)
    else ([], d :: ds)

theorem incRunTake_snd_length (c : Char) (l : List Char) :
    (incRunTake c l).2.length ≤ l.length := by
  induction l generalizing c with
  | nil => simp [incRunTake]
  | cons d ds ih =>
    simp only [incRunTake]
    split
    · exact Nat.le_trans (ih d) (Nat.le_succ _)
    · simp

/-- Decomposition of a string into its maximal strictly-increasing runs,
with the start index of each run (first run starting at index `i`). -/
def incRunsFrom (i : ℕ) (l : List Char) : List (ℕ × List Char) :=
  match l with
  | [] => []
  | c :: rest =>
    (i, c :: (incRunTake c rest).1) ::
      incRunsFrom (i + 1 + (incRunTake c rest).1.length) (incRunTake c rest).2
termination_by l.length
decreasing_by
  simp only [List.length_cons]
  exact Nat.lt_succ_of_le (incRunTake_snd_length _ _)

/-- Length of the longest run in a decomposition. -/
def maxRunLen (rs : List (ℕ × List Char)) : ℕ :=
  rs.foldr (fun r m => Nat.max r.2.length m) 0

/-- The runs tying for longest, in order of appearance. -/
def tyingRuns (m : ℕ) (rs : List (ℕ × List Char)) : List (ℕ × List Char) :=
  rs.filter (fun r => r.2.length = m)

/-! ### Proof-side loop reformulations

`lenLoopS`/`colLoopS` re-express the two-pointer loops as structural
recursion over the unscanned suffix; the bridge lemmas below prove them
equal to the index-based loops, and the `_spec` lemmas relate them to the
run decomposition. -/

/-- Suffix form of `lenLoop`: `prev` is the last scanned character, `cur` the
length of the current run so far. -/
def lenLoopS (prev : Char) : List Char → ℕ → ℕ → ℕ
  | [], cur, m => Nat.max m cur
  | c :: cs, cur, m =>
    if prev < c then lenLoopS c cs (cur + 1) m else lenLoopS c cs 1 (Nat.max m cur)

/-- Suffix form of `colLoop`: `cur` is the current run's consumed characters,
`k` its absolute start index, `j` the absolute scan position. -/
def colLoopS (prev : Char) :
    List Char → List Char → ℕ → ℕ → ℕ → List Char × Int × Int → List Char × Int × Int
  | [], cur, k, j, m, acc =>
    if cur.length = m then
      (acc.1 ++ cur, (if acc.2.1 = -1 then (k : Int) else acc.2.1), (j : Int) - 1)
    else acc
  | c :: cs, cur, k, j, m, acc =>
    if prev < c then colLoopS c cs (cur ++ [c]) k (j + 1) m acc
    else
      colLoopS c cs [c] j (j + 1) m
        (if cur.length = m then
          (acc.1 ++ cur, (if acc.2.1 = -1 then (k : Int) else acc.2.1), (j : Int) - 1)
        else acc)

/-- Folding the tying-run collection over a run decomposition; mirrors the
per-boundary update of `colLoop`. -/
def collectTying (m : ℕ) : List (ℕ × List Char) → List Char × Int × Int → List Char × Int × Int
  | [], acc => acc
  | r :: rs, acc =>
    collectTying m rs
      (if r.2.length = m then
        (acc.1 ++ r.2, (if acc.2.1 = -1 then (r.1 : Int) else acc.2.1),
          (r.1 : Int) + r.2.length - 1)
      else acc)

theorem jsCharAt_of_drop {l : List Char} {j : ℕ} {c : Char} {cs : List Char}
    (h : l.drop j = c :: cs) : jsCharAt l j = c := by
  have h0 : l[j]? = some c := by
    have := List.getElem?_drop l j 0
    rw [h] at this
    simpa using this.symm
  simp [jsCharAt, List.getD_eq_getElem?_getD, h0]

theorem drop_succ_of_drop {l : List Char} {j : ℕ} {c : Char} {cs : List Char}
    (h : l.drop j = c :: cs) : l.drop (j + 1) = cs := by
  have : l.drop (j + 1) = (l.drop j).drop 1 := by
    rw [List.drop_drop]
  rw [this, h]
  rfl

theorem lt_length_of_drop {l : List Char} {j : ℕ} {c : Char} {cs : List Char}
    (h : l.drop j = c :: cs) : j < l.length := by
  by_contra hj
  rw [List.drop_eq_nil_of_le (Nat.le_of_not_lt hj)] at h
  exact List.noConfusion h

theorem jsSubstring_length {l : List Char} {k j : ℕ} (hkj : k ≤ j) (hj : j ≤ l.length) :
    (jsSubstring l k j).length = j - k := by
  simp only [jsSubstring, List.length_take, List.length_drop]
  omega

theorem jsSubstring_snoc {l : List Char} {k j : ℕ} {c : Char} {cs : List Char}
    (hkj : k ≤ j) (h : l.drop j = c :: cs) :
    jsSubstring l k (j + 1) = jsSubstring l k j ++ [c] := by
  have hj : j < l.length := lt_length_of_drop h
  have hget : (l.drop k)[j - k]? = some c := by
    rw [List.getElem?_drop]
    have h0 : l[j]? = some c := by
      have := List.getElem?_drop l j 0
      rw [h] at this
      simpa using this.symm
    rw [show k + (j - k) = j by omega, h0]
  simp only [jsSubstring, show j + 1 - k = (j - k) + 1 by omega, List.take_succ, hget]
  rfl

theorem jsSubstring_single {l : List Char} {j : ℕ} {c : Char} {cs : List Char}
    (h : l.drop j = c :: cs) : jsSubstring l j (j + 1) = [c] := by
  simp only [jsSubstring, show j + 1 - j = 1 by omega, h]
  rfl

theorem maxRunLen_cons (r : ℕ × List Char) (rs : List (ℕ × List Char)) :
    maxRunLen (r :: rs) = Nat.max r.2.length (maxRunLen rs) := rfl

/-- The maximal run length of a suffix does not depend on the start-index
bookkeeping. -/
theorem maxRunLen_incRunsFrom :
    ∀ (n : ℕ) (l : List Char), l.length ≤ n →
      ∀ i j, maxRunLen (incRunsFrom i l) = maxRunLen (incRunsFrom j l) := by
  intro n
  induction n with
  | zero =>
    intro l hl i j
    have : l = [] := List.eq_nil_of_length_eq_zero (by omega)
    simp [this, incRunsFrom]
  | succ n ih =>
    intro l hl i j
    match l with
    | [] => simp [incRunsFrom]
    | c :: rest =>
      rw [incRunsFrom, incRunsFrom, maxRunLen_cons, maxRunLen_cons]
      have hrest : (incRunTake c rest).2.length ≤ n := by
        have := incRunTake_snd_length c rest
        simp only [List.length_cons] at hl
        omega
      rw [ih _ hrest (i + 1 + (incRunTake c rest).1.length) (j + 1 + (incRunTake c rest).1.length)]

/-- Model of `lenLoop` from a mid-run state `(left = k - 1, right = j)` equals the
suffix loop on the unscanned remainder. -/
theorem lenLoop_bridge :
    ∀ (rest : List Char) (fuel : ℕ) (l : List Char) (k j m : ℕ),
      rest.length < fuel → k < j → j ≤ l.length → l.drop j = rest →
      lenLoop l fuel ((k : Int) - 1) j m = lenLoopS (jsCharAt l (j - 1)) rest (j - k) m := by
  intro rest
  induction rest with
  | nil =>
    intro fuel l k j m hfuel hkj hj hd
    have hlen : l.length ≤ j := by
      by_contra hc
      have := List.drop_eq_nil_iff.mp hd
      omega
    match fuel with
    | f + 1 =>
      simp only [lenLoop, if_neg (by omega : ¬ j < l.length), lenLoopS]
      congr 1
      omega
  | cons c cs ih =>
    intro fuel l k j m hfuel hkj hj hd
    have hjlt : j < l.length := lt_length_of_drop hd
    have hc : jsCharAt l j = c := jsCharAt_of_drop hd
    have hd' : l.drop (j + 1) = cs := drop_succ_of_drop hd
    match fuel with
    | f + 1 =>
      simp only [lenLoop, if_pos hjlt, lenLoopS, hc]
      by_cases hcmp : jsCharAt l (j - 1) < c
      · rw [if_pos ⟨by omega, hcmp⟩, if_pos hcmp]
        have := ih f l k (j + 1) m (by simpa using hfuel) (by omega) (by omega) hd'
        rw [this, show j + 1 - 1 = j by omega, hc, show j + 1 - k = (j - k) + 1 by omega]
      · rw [if_neg (fun h => hcmp h.2), if_neg hcmp]
        have heq : ((j : Int) - 1) = ((j : ℕ) : Int) - 1 := rfl
        have := ih f l j (j + 1) (Nat.max m (((j : Int) - (((k : ℕ) : Int) - 1) - 1).toNat))
          (by simpa using hfuel) (by omega) (by omega) hd'
        rw [this, show j + 1 - 1 = j by omega, hc, show j + 1 - j = 1 by omega]
        congr 2
        omega

/-- The suffix length-loop computes the maximum of `m`, the completed current
run, and the lengths of all later maximal runs. -/
theorem lenLoopS_spec :
    ∀ (rest : List Char) (prev : Char) (cur m : ℕ),
      lenLoopS prev rest cur m =
        Nat.max m (Nat.max (cur + (incRunTake prev rest).1.length)
          (maxRunLen (incRunsFrom 0 (incRunTake prev rest).2))) := by
  intro rest
  induction rest with
  | nil =>
    intro prev cur m
    simp [lenLoopS, incRunTake, maxRunLen, incRunsFrom]
  | cons c cs ih =>
    intro prev cur m
    simp only [lenLoopS, incRunTake]
    by_cases hcmp : prev < c
    · rw [if_pos hcmp, if_pos hcmp, ih]
      simp only [List.length_cons]
      congr 2
      omega
    · rw [if_neg hcmp, if_neg hcmp, ih]
      rw [incRunsFrom, maxRunLen_cons,
        maxRunLen_incRunsFrom ((incRunTake c cs).2.length) _ le_rfl
          (0 + 1 + (incRunTake c cs).1.length) 0]
      simp only [List.length_cons, List.length_nil, Nat.add_zero, Nat.add_comm 1]
      exact Nat.max_assoc m cur _

/-- Model of `colLoop` from a mid-run state equals the suffix collector. -/
theorem colLoop_bridge :
    ∀ (rest : List Char) (fuel : ℕ) (l : List Char) (k j m : ℕ) (acc : List Char × Int × Int),
      rest.length < fuel → k < j → j ≤ l.length → l.drop j = rest →
      colLoop l m fuel ((k : Int) - 1) j acc.1 acc.2.1 acc.2.2 =
        colLoopS (jsCharAt l (j - 1)) rest (jsSubstring l k j) k j m acc := by
  intro rest
  induction rest with
  | nil =>
    intro fuel l k j m acc hfuel hkj hj hd
    have hlen : l.length ≤ j := by
      by_contra hc
      have := List.drop_eq_nil_iff.mp hd
      omega
    have hcurlen : (jsSubstring l k j).length = j - k := jsSubstring_length (by omega) hj
    match fuel with
    | f + 1 =>
      simp only [colLoop, if_neg (by omega : ¬ j < l.length), colLoopS]
      have hcond : (((j : Int) - ((k : Int) - 1) - 1) = (m : Int)) ↔ ((jsSubstring l k j).length = m) := by
        rw [hcurlen]; omega
      by_cases hc : (jsSubstring l k j).length = m
      · rw [if_pos (hcond.mpr hc), if_pos hc]
        have : ((k : Int) - 1 + 1) = (k : Int) := by omega
        rw [this]
        simp [Int.toNat_ofNat]
      · rw [if_neg (fun h => hc (hcond.mp h)), if_neg hc]
  | cons c cs ih =>
    intro fuel l k j m acc hfuel hkj hj hd
    have hjlt : j < l.length := lt_length_of_drop hd
    have hc : jsCharAt l j = c := jsCharAt_of_drop hd
    have hd' : l.drop (j + 1) = cs := drop_succ_of_drop hd
    have hcurlen : (jsSubstring l k j).length = j - k := jsSubstring_length (by omega) hj
    match fuel with
    | f + 1 =>
      simp only [colLoop, if_pos hjlt, colLoopS, hc]
      by_cases hcmp : jsCharAt l (j - 1) < c
      · rw [if_pos ⟨by omega, hcmp⟩, if_pos hcmp]
        have := ih f l k (j + 1) m acc (by simpa using hfuel) (by omega) (by omega) hd'
        rw [this, show j + 1 - 1 = j by omega, hc, jsSubstring_snoc (by omega) hd]
      · rw [if_neg (fun h => hcmp h.2), if_neg hcmp]
        have hcond : (((j : Int) - ((k : Int) - 1) - 1) = (m : Int)) ↔ ((jsSubstring l k j).length = m) := by
          rw [hcurlen]; omega
        have hone : ((k : Int) - 1 + 1) = (k : Int) := by omega
        by_cases hrec : (jsSubstring l k j).length = m
        · rw [if_pos (hcond.mpr hrec), if_pos hrec]
          have := ih f l j (j + 1) m
            (acc.1 ++ jsSubstring l ((k : Int) - 1 + 1).toNat j,
              (if acc.2.1 = -1 then (k : Int) - 1 + 1 else acc.2.1), (j : Int) - 1)
            (by simpa using hfuel) (by omega) (by omega) hd'
          rw [this, show j + 1 - 1 = j by omega, hc, jsSubstring_single hd]
          rw [hone]
          simp [Int.toNat_ofNat]
        · rw [if_neg (fun h => hrec (hcond.mp h)), if_neg hrec]
          have := ih f l j (j + 1) m acc (by simpa using hfuel) (by omega) (by omega) hd'
          rw [this, show j + 1 - 1 = j by omega, hc, jsSubstring_single hd]

/-- The suffix collector equals the tying-run fold over the decomposition
whose first run is the current one (already partially consumed). -/
theorem colLoopS_spec :
    ∀ (rest : List Char) (prev : Char) (cur : List Char) (k j m : ℕ) (acc : List Char × Int × Int),
      j = k + cur.length →
      colLoopS prev rest cur k j m acc =
        collectTying m
          ((k, cur ++ (incRunTake prev rest).1) ::
            incRunsFrom (j + (incRunTake prev rest).1.length) (incRunTake prev rest).2) acc := by
  intro rest
  induction rest with
  | nil =>
    intro prev cur k j m acc hj
    simp only [colLoopS, incRunTake, collectTying, incRunsFrom, List.append_nil]
    by_cases hc : cur.length = m
    · rw [if_pos hc, if_pos hc]
      have : ((k : Int) + (cur.length : Int) - 1) = (j : Int) - 1 := by omega
      rw [this]
    · rw [if_neg hc, if_neg hc]
  | cons c cs ih =>
    intro prev cur k j m acc hj
    simp only [colLoopS, incRunTake]
    by_cases hcmp : prev < c
    · rw [if_pos hcmp, if_pos hcmp]
      rw [ih c (cur ++ [c]) k (j + 1) m acc (by simp [hj]; omega)]
      simp only [List.append_assoc, List.singleton_append, List.length_cons]
      rw [show j + 1 + (incRunTake c cs).1.length
            = j + ((incRunTake c cs).1.length + 1) by omega]
    · rw [if_neg hcmp, if_neg hcmp]
      rw [ih c [c] j (j + 1) m _ (by simp)]
      conv_rhs => rw [incRunsFrom]
      simp only [collectTying, List.append_nil, List.length_nil, Nat.add_zero,
        List.singleton_append, List.length_singleton]
      have : ((k : Int) + (cur.length : Int) - 1) = (j : Int) - 1 := by omega
      rw [this]

theorem collectTying_of_no_tie (m : ℕ) :
    ∀ (rs : List (ℕ × List Char)) (acc : List Char × Int × Int),
      tyingRuns m rs = [] → collectTying m rs acc = acc := by
  intro rs
  induction rs with
  | nil => intro acc _; rfl
  | cons r rs ih =>
    intro acc hty
    by_cases hr : r.2.length = m
    · have : tyingRuns m (r :: rs) = r :: tyingRuns m rs := by
        simp [tyingRuns, List.filter_cons, hr]
      rw [this] at hty
      exact absurd hty (by simp)
    · have h2 : tyingRuns m rs = [] := by
        have : tyingRuns m (r :: rs) = tyingRuns m rs := by
          simp [tyingRuns, List.filter_cons, hr]
        rwa [this] at hty
      simp only [collectTying, if_neg hr]
      exact ih acc h2

theorem getLast?_cons_of_ne_nil {α : Type} (a : α) {l : List α} (h : l ≠ []) :
    (a :: l).getLast? = l.getLast? := by
  match l with
  | [] => exact absurd rfl h
  | b :: bs => exact List.getLast?_cons_cons

/-- Folding the tying update over a decomposition: the accumulator receives
the concatenation of all tying runs, the start index of the first (if it was
still unset) and the end index of the last. -/
theorem collectTying_char (m : ℕ) :
    ∀ (rs : List (ℕ × List Char)) (sub : List Char) (st en : Int) (rf rl : ℕ × List Char),
      (tyingRuns m rs).head? = some rf → (tyingRuns m rs).getLast? = some rl →
      collectTying m rs (sub, st, en) =
        (sub ++ ((tyingRuns m rs).map Prod.snd).flatten,
          (if st = -1 then (rf.1 : Int) else st),
          (rl.1 : Int) + rl.2.length - 1) := by
  intro rs
  induction rs with
  | nil => intro sub st en rf rl h _; simp [tyingRuns] at h
  | cons r rs ih =>
    intro sub st en rf rl hhd hlast
    by_cases hr : r.2.length = m
    · have hty : tyingRuns m (r :: rs) = r :: tyingRuns m rs := by
        simp [tyingRuns, List.filter_cons, hr]
      rw [hty] at hhd hlast
      have hrf : rf = r := by simpa using hhd.symm
      simp only [collectTying, if_pos hr]
      by_cases h2 : tyingRuns m rs = []
      · rw [collectTying_of_no_tie m rs _ h2]
        have hrl : rl = r := by
          rw [h2] at hlast
          simpa using hlast.symm
        rw [hty, hrf, hrl, h2]
        simp [hr]
      · obtain ⟨rf', hrf'⟩ : ∃ x, (tyingRuns m rs).head? = some x := by
          cases hx : tyingRuns m rs with
          | nil => exact absurd hx h2
          | cons a as => exact ⟨a, rfl⟩
        obtain ⟨rl', hrl'⟩ : ∃ x, (tyingRuns m rs).getLast? = some x := by
          cases hx : tyingRuns m rs with
          | nil => exact absurd hx h2
          | cons a as => exact ⟨_, List.getLast?_eq_getLast _ (by simp)⟩
        have hrl : rl = rl' := by
          rw [getLast?_cons_of_ne_nil r h2, hrl'] at hlast
          simpa using hlast.symm
        rw [ih (sub ++ r.2) (if st = -1 then (r.1 : Int) else st)
          ((r.1 : Int) + r.2.length - 1) rf' rl' hrf' hrl']
        have hst : ¬ ((if st = -1 then (r.1 : Int) else st) = -1) := by
          by_cases hs : st = -1
          · rw [if_pos hs]; omega
          · rw [if_neg hs]; exact hs
        rw [if_neg hst, hty, hrf, hrl]
        simp [List.append_assoc]
    · have hty : tyingRuns m (r :: rs) = tyingRuns m rs := by
        simp [tyingRuns, List.filter_cons, hr]
      rw [hty] at hhd hlast
      simp only [collectTying, if_neg hr]
      rw [ih sub st en rf rl hhd hlast, hty]

/-- The maximum run length is attained by some run, so the tying list of a
nonempty decomposition is nonempty. -/
theorem tyingRuns_maxRunLen_ne_nil :
    ∀ (rs : List (ℕ × List Char)), rs ≠ [] → tyingRuns (maxRunLen rs) rs ≠ [] := by
  intro rs
  induction rs with
  | nil => intro h; exact absurd rfl h
  | cons r rs ih =>
    intro _
    rw [maxRunLen_cons]
    rcases Nat.le_total (maxRunLen rs) r.2.length with hle | hle
    · have hmx : Nat.max r.2.length (maxRunLen rs) = r.2.length := Nat.max_eq_left hle
      rw [hmx]
      simp [tyingRuns, List.filter_cons]
    · have hmx : Nat.max r.2.length (maxRunLen rs) = maxRunLen rs := Nat.max_eq_right hle
      rw [hmx]
      by_cases h2 : rs = []
      · subst h2
        have h0 : maxRunLen ([] : List (ℕ × List Char)) = 0 := rfl
        rw [h0] at hle ⊢
        have hz : r.2 = [] := List.length_eq_zero.mp (by omega)
        simp [tyingRuns, List.filter_cons, hz]
      · have := ih h2
        simp only [tyingRuns, List.filter_cons] at this ⊢
        by_cases hr : r.2.length = maxRunLen rs
        · simp [hr]
        · simpa [hr] using this

/-- The length loop, started as the source starts it, computes the maximal
run length of the decomposition. -/
theorem lenLoop_eq_maxRunLen (c : Char) (cs : List Char) :
    lenLoop (c :: cs) ((c :: cs).length + 1) (-1) 0 0 = maxRunLen (incRunsFrom 0 (c :: cs)) := by
  have h0 : lenLoop (c :: cs) ((c :: cs).length + 1) (-1) 0 0
      = lenLoop (c :: cs) (cs.length + 1) (((0 : ℕ) : Int) - 1) 1 0 := by
    simp [lenLoop]
  rw [h0, lenLoop_bridge cs (cs.length + 1) (c :: cs) 0 1 0 (by omega) (by omega) (by simp) rfl]
  have hchar : jsCharAt (c :: cs) (1 - 1) = c := rfl
  rw [hchar, lenLoopS_spec]
  conv_rhs => rw [incRunsFrom]
  rw [maxRunLen_cons,
    maxRunLen_incRunsFrom ((incRunTake c cs).2.length) _ le_rfl
      (0 + 1 + (incRunTake c cs).1.length) 0]
  simp only [List.length_cons, Nat.zero_max, Nat.sub_zero]
  rw [Nat.add_comm 1]

theorem one_le_maxRunLen (c : Char) (cs : List Char) :
    1 ≤ maxRunLen (incRunsFrom 0 (c :: cs)) := by
  rw [incRunsFrom, maxRunLen_cons]
  exact Nat.le_trans (by simp) (Nat.le_max_left _ _)

/-- The collecting loop, started as the source starts it, folds the tying
update over the whole run decomposition. -/
theorem colLoop_eq_collectTying (c : Char) (cs : List Char) (m : ℕ) (hm : 1 ≤ m) :
    colLoop (c :: cs) m ((c :: cs).length + 1) (-1) 0 [] (-1) 0
      = collectTying m (incRunsFrom 0 (c :: cs)) ([], -1, 0) := by
  have hstep : ∀ f : ℕ, colLoop (c :: cs) m (f + 1) (-1) 0 [] (-1) 0
      = colLoop (c :: cs) m f (((0 : ℕ) : Int) - 1) 1 [] (-1) 0 := by
    intro f
    simp only [colLoop, List.length_cons]
    rw [if_pos (by omega : (0 : ℕ) < cs.length + 1)]
    rw [if_neg (by simp : ¬ (0 < 0 ∧ jsCharAt (c :: cs) (0 - 1) < jsCharAt (c :: cs) 0))]
    rw [if_neg (by push_cast; omega :
      ¬ (((0 : ℕ) : Int) - (-1) - 1) = (m : Int))]
  have h0 : colLoop (c :: cs) m ((c :: cs).length + 1) (-1) 0 [] (-1) 0
      = colLoop (c :: cs) m (cs.length + 1) (((0 : ℕ) : Int) - 1) 1 [] (-1) 0 := by
    rw [show (c :: cs).length + 1 = (cs.length + 1) + 1 from by simp]
    exact hstep (cs.length + 1)
  rw [h0,
    colLoop_bridge cs (cs.length + 1) (c :: cs) 0 1 m ([], -1, 0) (by omega) (by omega) (by simp) rfl]
  have hchar : jsCharAt (c :: cs) (1 - 1) = c := rfl
  have hsub : jsSubstring (c :: cs) 0 1 = [c] := rfl
  rw [hchar, hsub, colLoopS_spec cs c [c] 0 1 m ([], -1, 0) (by simp)]
  conv_rhs => rw [incRunsFrom]
  simp only [List.singleton_append, List.length_singleton, Nat.zero_add]

/-- The amended empty-name behaviour (used for C7): the collector records the
whole-string run of length `0 = maxLength`, leaving `startIndex = 0` but
`endIndex = right - 1 = -1`. -/
theorem findLongest_empty :
    findLongestIncreasingSubstrings "" = ⟨"", 0, -1⟩ := by decide

/-- Modelled from the spec: the result of the scan in the spec's words — the
tying longest runs concatenated in order of appearance, the start index of
the first and the end index of the last (defaults are the source's
initialisation values and are never reached for nonempty input). -/
def specLongestRuns (l : List Char) : RunsResult :=
  let rs := incRunsFrom 0 l
  let ty := tyingRuns (maxRunLen rs) rs
  { substring := ⟨(ty.map Prod.snd).flatten⟩,
    startIndex := (ty.head?.map (fun r => (r.1 : Int))).getD (-1),
    endIndex := (ty.getLast?.map (fun r => (r.1 : Int) + r.2.length - 1)).getD 0 }

/-- C1: for every nonempty product name, the code generator scans the
lower-cased name for the longest contiguous strictly-increasing runs,
concatenates all tying runs in order of appearance and records the start
index of the first and the end index of the last; for `"aabcabcd"` the
segment after the `-` is exactly `4abcd7`. -/
theorem c1_code_generator_longest_runs (name : String) (h : name ≠ "") :
    findLongestIncreasingSubstrings name = specLongestRuns (jsToLower name).data
      ∧ codeTail "aabcabcd" = "-4abcd7" := by
  refine ⟨?_, by decide⟩
  have hd : (jsToLower name).data ≠ [] := by
    intro hc
    apply h
    have hlen : name.data.length = 0 := by
      have := congrArg List.length hc
      simpa [jsToLower] using this
    have : name.data = [] := List.length_eq_zero.mp hlen
    cases name with
    | mk d => simp at this; rw [this]
  obtain ⟨c, cs, hl⟩ : ∃ c cs, (jsToLower name).data = c :: cs := by
    cases hx : (jsToLower name).data with
    | nil => exact absurd hx hd
    | cons a as => exact ⟨a, as, rfl⟩
  simp only [findLongestIncreasingSubstrings, findLongestIncreasingSubstringsLength]
  rw [hl, lenLoop_eq_maxRunLen c cs,
    colLoop_eq_collectTying c cs _ (one_le_maxRunLen c cs)]
  have hrsne : incRunsFrom 0 (c :: cs) ≠ [] := by
    rw [incRunsFrom]; simp
  have htyne := tyingRuns_maxRunLen_ne_nil (incRunsFrom 0 (c :: cs)) hrsne
  obtain ⟨rf, hrf⟩ : ∃ x,
      (tyingRuns (maxRunLen (incRunsFrom 0 (c :: cs))) (incRunsFrom 0 (c :: cs))).head? = some x := by
    cases hx : tyingRuns (maxRunLen (incRunsFrom 0 (c :: cs))) (incRunsFrom 0 (c :: cs)) with
    | nil => exact absurd hx htyne
    | cons a as => exact ⟨a, rfl⟩
  obtain ⟨rl, hrl⟩ : ∃ x,
      (tyingRuns (maxRunLen (incRunsFrom 0 (c :: cs))) (incRunsFrom 0 (c :: cs))).getLast? = some x := by
    cases hx : tyingRuns (maxRunLen (incRunsFrom 0 (c :: cs))) (incRunsFrom 0 (c :: cs)) with
    | nil => exact absurd hx htyne
    | cons a as => exact ⟨_, List.getLast?_eq_getLast _ (by simp)⟩
  rw [collectTying_char _ _ [] (-1) 0 rf rl hrf hrl]
  simp [specLongestRuns, hrf, hrl]

/-- Witness for C1 at the spec's own example. -/
theorem c1_code_generator_longest_runs_witness :
    ("aabcabcd" : String) ≠ ""
      ∧ (findLongestIncreasingSubstrings "aabcabcd"
          = specLongestRuns (jsToLower "aabcabcd").data
        ∧ codeTail "aabcabcd" = "-4abcd7") :=
  ⟨by decide, c1_code_generator_longest_runs "aabcabcd" (by decide)⟩

/-- C7 counterexample: on the empty name the source leaves
`endIndex = right - 1 = -1` (not `0`), so the generated code ends in
`"-0-1"`, not `"-00"`. -/
theorem c7_empty_name_counterexample :
    ¬ ((findLongestIncreasingSubstrings "").endIndex = 0 ∧ codeTail "" = "-00") := by
  decide

/-- C7 amended: for the empty name the longest-run length is `0`, the
substring is empty and `startIndex = 0`, but `endIndex = -1`, so the
generated code ends with `"-0-1"`. -/
theorem c7_empty_name_amended :
    findLongestIncreasingSubstringsLength "" = 0
      ∧ findLongestIncreasingSubstrings "" = ⟨"", 0, -1⟩
      ∧ codeTail "" = "-0-1" := by
  decide

/-! ## Data model (`src/models/product.ts`, `src/models/category.ts`) -/

/-- A stored Product document.  `status` holds one of the enum strings
`"In Stock"` / `"Stock Out"`; timestamps are modelled as naturals. -/
structure ProductRec where
  id : String
  name : String
  description : String
  price : ℚ
  discount : ℚ
  image : String
  status : String
  productCode : String
  category : String
  categoryName : String
  createdAt : ℕ
  updatedAt : ℕ
deriving DecidableEq, Repr

/-- A stored Category document. -/
structure CategoryRec where
  id : String
  name : String
  description : Option String
  createdAt : ℕ
  updatedAt : ℕ
deriving DecidableEq, Repr

/-- The document store: two collections.  The store enforces a unique index
on `Category.name` and on `Product.productCode` (declared in the Mongoose
schemas); there is no composite index on `(Product.name, category)`. -/
structure DB where
  categories : List CategoryRec
  products : List ProductRec
deriving DecidableEq, Repr

/-! ## Pricing calculator (`calculatePricing` in `src/controllers/product.ts`) -/

/-- Model of `parseFloat(x.toFixed(2))` for the nonnegative values arising here:
round to the nearest hundredth, ties away from zero. -/
def round2 (x : ℚ) : ℚ := ((⌊x * 100 + 1 / 2⌋ : ℤ) : ℚ) / 100

/-- The `pricing` sub-object attached to product responses. -/
structure Pricing where
  originalPrice : ℚ
  discountPercentage : ℚ
  discountAmount : ℚ
  finalPrice : ℚ
  savings : ℚ
  hasDiscount : Bool
deriving DecidableEq, Repr

/-- Model of `{...product.toObject(), pricing}`: all stored fields plus the derived
`pricing` sub-object, in a fresh object. -/
structure PricedProduct where
  product : ProductRec
  pricing : Pricing
deriving DecidableEq, Repr

/-- Model of `calculatePricing` from the source.  `product.discount || 0` is the
stored discount: the Mongoose schema defaults it to `0`, so it is always
present. -/
def calculatePricing (product : ProductRec) : PricedProduct :=
  let originalPrice := product.price
  let discountPercentage := product.discount
  let discountAmount := originalPrice * discountPercentage / 100
  let finalPrice := originalPrice - discountAmount
  let savings := discountAmount
  { product := product
    pricing :=
      { originalPrice := round2 originalPrice
        discountPercentage := discountPercentage
        discountAmount := round2 discountAmount
        finalPrice := round2 finalPrice
        savings := round2 savings
        hasDiscount := decide (0 < discountPercentage) } }

theorem round2_den (x : ℚ) : round2 x * 100 = ((⌊x * 100 + 1 / 2⌋ : ℤ) : ℚ) := by
  rw [round2, div_mul_cancel₀]
  norm_num

/-- C2: for price `p ≥ 0` and discount `d ∈ [0, 100]`, the pricing object
satisfies `discountAmount = p·d/100`, `finalPrice = p − discountAmount`,
`savings = discountAmount` and `hasDiscount = (d > 0)`, all monetary outputs
rounded to two decimals (hundredths of a unit, witnessed by the integrality
of `100 ·` each output), and the stored record is returned unchanged. -/
theorem c2_pricing_derivation (p : ProductRec)
    (hp : 0 ≤ p.price) (hd0 : 0 ≤ p.discount) (hd1 : p.discount ≤ 100) :
    (calculatePricing p).pricing.discountAmount = round2 (p.price * p.discount / 100)
      ∧ (calculatePricing p).pricing.finalPrice
          = round2 (p.price - p.price * p.discount / 100)
      ∧ (calculatePricing p).pricing.savings = (calculatePricing p).pricing.discountAmount
      ∧ ((calculatePricing p).pricing.hasDiscount = true ↔ 0 < p.discount)
      ∧ (∃ n : ℤ, (calculatePricing p).pricing.discountAmount * 100 = (n : ℚ))
      ∧ (∃ n : ℤ, (calculatePricing p).pricing.finalPrice * 100 = (n : ℚ))
      ∧ (∃ n : ℤ, (calculatePricing p).pricing.savings * 100 = (n : ℚ))
      ∧ (calculatePricing p).product = p := by
  refine ⟨rfl, rfl, rfl, ?_, ⟨_, round2_den _⟩, ⟨_, round2_den _⟩, ⟨_, round2_den _⟩, rfl⟩
  simp [calculatePricing]

/-- Witness for C2 at price 19.99, discount 15. -/
theorem c2_pricing_derivation_witness :
    (0 ≤ (1999 / 100 : ℚ) ∧ 0 ≤ (15 : ℚ) ∧ (15 : ℚ) ≤ 100)
      ∧ (let p : ProductRec :=
          { id := "a", name := "n", description := "d", price := 1999 / 100,
            discount := 15, image := "http://x", status := "In Stock",
            productCode := "c", category := "k", categoryName := "K",
            createdAt := 0, updatedAt := 0 }
         (calculatePricing p).pricing.discountAmount = round2 (p.price * p.discount / 100)
           ∧ (calculatePricing p).pricing.finalPrice
               = round2 (p.price - p.price * p.discount / 100)
           ∧ (calculatePricing p).pricing.savings = (calculatePricing p).pricing.discountAmount
           ∧ ((calculatePricing p).pricing.hasDiscount = true ↔ 0 < p.discount)
           ∧ (∃ n : ℤ, (calculatePricing p).pricing.discountAmount * 100 = (n : ℚ))
           ∧ (∃ n : ℤ, (calculatePricing p).pricing.finalPrice * 100 = (n : ℚ))
           ∧ (∃ n : ℤ, (calculatePricing p).pricing.savings * 100 = (n : ℚ))
           ∧ (calculatePricing p).product = p) :=
  ⟨⟨by norm_num, by norm_num, by norm_num⟩,
    c2_pricing_derivation _ (by norm_num) (by norm_num) (by norm_num)⟩

/-! ## JavaScript value model for query handling

The `validate` middleware parses `{body, query, params}` with Zod but
discards the parsed result, so the controllers read the *raw* values:
query parameters stay strings, and defaults are applied by destructuring
(`page = 1`) and by `||` on the raw value. -/

/-- A JS value as seen by the pagination code: either a number (the
destructuring default) or the raw query string.  Every number reaching this
code is a natural (the defaults `1`/`10`, or a parsed digit string). -/
inductive JVal
  | num (n : ℕ)
  | str (s : String)
deriving DecidableEq, Repr

/-- JS truthiness: `0` and `""` are falsy; every other number/string reached
here is truthy (in particular the string `"0"` is truthy). -/
def JVal.truthy : JVal → Bool
  | .num n => decide (n ≠ 0)
  | .str s => decide (s ≠ "")

/-- Model of `x || d` on a JS value: keeps the value itself when truthy. -/
def jsOr (v : JVal) (d : ℕ) : JVal := if v.truthy then v else .num d

/-- Decimal value of a digit string (fold over the characters). -/
def parseDigits (l : List Char) : ℕ :=
  l.foldl (fun acc c => acc * 10 + (c.toNat - Char.toNat '0')) 0

/-- JS `ToNumber` restricted to the values reachable after validation
(numbers, and strings matching `^\d+$`, which parse as decimal naturals). -/
def jsToNum : JVal → ℕ
  | .num n => n
  | .str s => parseDigits s.data

/-- A JS number that may be `Infinity` or `NaN` (arising from
`totalItems / 0`); finite values of `totalPages` are naturals. -/
inductive JNum
  | fin (n : ℕ)
  | inf
  | nan
deriving DecidableEq, Repr

/-- Model of `Math.ceil(a / b)` for naturals: JS division by `0` gives `Infinity` for
`a > 0` and `NaN` for `a = 0`; otherwise the rounded-up quotient. -/
def jsCeilDiv (a b : ℕ) : JNum :=
  if b = 0 then (if a = 0 then .nan else .inf) else .fin ((a + b - 1) / b)

/-- JS `<` between a finite number and a possibly non-finite one: anything is
`< Infinity`, nothing compares with `NaN`. -/
def jsLtNum (a : ℕ) : JNum → Bool
  | .fin b => decide (a < b)
  | .inf => true
  | .nan => false

/-! ## Validation layer (`src/middleware/validation.ts`) -/

/-- A Zod issue: the path into `{body, query, params}` plus the message. -/
structure ZodIssue where
  path : List String
  message : String
deriving DecidableEq, Repr

/-- Model of `mongoose.Types.ObjectId.isValid`: a 24-character hex string, or any
12-character string (interpreted as 12 raw bytes). -/
def isValidObjectId (s : String) : Bool :=
  s.length = 12
    || (s.length = 24
        && s.data.all (fun c =>
          c.isDigit || ('a' ≤ c && c ≤ 'f') || ('A' ≤ c && c ≤ 'F')))

/-- A JSON body value. -/
inductive JsonVal
  | jstr (s : String)
  | jnum (q : ℚ)
  | jbool (b : Bool)
  | jnull
deriving DecidableEq, Repr

/-- The name Zod uses for a received value's type in `invalid_type` issues. -/
def jsonTypeName : JsonVal → String
  | .jstr _ => "string"
  | .jnum _ => "number"
  | .jbool _ => "boolean"
  | .jnull => "null"

/-- Checks of `z.string().min(1, minMsg).max(maxBound, maxMsg)`. -/
def zodStringChecks (path : List String) (maxBound : ℕ) (minMsg maxMsg : String) :
    JsonVal → List ZodIssue
  | .jstr s =>
    (if s.length < 1 then [⟨path, minMsg⟩] else [])
      ++ (if maxBound < s.length then [⟨path, maxMsg⟩] else [])
  | v => [⟨path, "Expected string, received " ++ jsonTypeName v⟩]

/-- Checks of `z.number().min(0, msg)`. -/
def zodPriceChecks (path : List String) : JsonVal → List ZodIssue
  | .jnum q => if q < 0 then [⟨path, "Price must be a positive number"⟩] else []
  | v => [⟨path, "Expected number, received " ++ jsonTypeName v⟩]

/-- Checks of `z.number().min(0).max(100)` for `discount`. -/
def zodDiscountChecks (path : List String) : JsonVal → List ZodIssue
  | .jnum q =>
    (if q < 0 then [⟨path, "Discount must be at least 0"⟩] else [])
      ++ (if 100 < q then [⟨path, "Discount cannot exceed 100%"⟩] else [])
  | v => [⟨path, "Expected number, received " ++ jsonTypeName v⟩]

/-- Checks of `z.string().url(msg)`.  Zod's URL validity test (`new URL`) is
an environment primitive; it enters the model as the oracle `urlOk`. -/
def zodUrlChecks (urlOk : String → Bool) (path : List String) : JsonVal → List ZodIssue
  | .jstr s => if urlOk s then [] else [⟨path, "Image must be a valid URL"⟩]
  | v => [⟨path, "Expected string, received " ++ jsonTypeName v⟩]

/-- Checks of `z.enum(values)`. -/
def zodEnumChecks (path : List String) (values : List String) : JsonVal → List ZodIssue
  | .jstr s => if s ∈ values then [] else [⟨path, "Invalid enum value"⟩]
  | v => [⟨path, "Expected string, received " ++ jsonTypeName v⟩]

/-- The custom `objectIdSchema` refinement on a string value. -/
def zodObjectIdChecks (path : List String) : JsonVal → List ZodIssue
  | .jstr s => if isValidObjectId s then [] else [⟨path, "Invalid ObjectId format"⟩]
  | v => [⟨path, "Expected string, received " ++ jsonTypeName v⟩]

/-- A required field: absent yields Zod's `Required` issue. -/
def reqField (path : List String) (check : JsonVal → List ZodIssue) :
    Option JsonVal → List ZodIssue
  | none => [⟨path, "Required"⟩]
  | some v => check v

/-- An optional field (with or without default): absent yields no issue. -/
def optField (check : JsonVal → List ZodIssue) : Option JsonVal → List ZodIssue
  | none => []
  | some v => check v

/-- Raw create-Product request body (`req.body` as JSON). -/
structure RawCreateBody where
  name : Option JsonVal
  description : Option JsonVal
  price : Option JsonVal
  discount : Option JsonVal
  image : Option JsonVal
  status : Option JsonVal
  categoryId : Option JsonVal
deriving DecidableEq, Repr

/-- All issues of `createProductSchema` on a body, in shape-key order. -/
def createProductIssues (urlOk : String → Bool) (b : RawCreateBody) : List ZodIssue :=
  reqField ["body", "name"]
      (zodStringChecks ["body", "name"] 100 "Product name is required"
        "Product name must be less than 100 characters") b.name
    ++ reqField ["body", "description"]
      (zodStringChecks ["body", "description"] 500 "Description is required"
        "Description must be less than 500 characters") b.description
    ++ reqField ["body", "price"] (zodPriceChecks ["body", "price"]) b.price
    ++ optField (zodDiscountChecks ["body", "discount"]) b.discount
    ++ reqField ["body", "image"] (zodUrlChecks urlOk ["body", "image"]) b.image
    ++ optField (zodEnumChecks ["body", "status"] ["In Stock", "Stock Out"]) b.status
    ++ reqField ["body", "categoryId"] (zodObjectIdChecks ["body", "categoryId"]) b.categoryId

/-- Raw update-Product request body.  `productCode` is an *unknown key*: the
schema neither checks nor strips it from `req.body` (the parsed result is
discarded), so it flows to the controller untouched. -/
structure RawUpdateBody where
  name : Option JsonVal
  description : Option JsonVal
  price : Option JsonVal
  discount : Option JsonVal
  image : Option JsonVal
  status : Option JsonVal
  categoryId : Option JsonVal
  productCode : Option JsonVal
deriving DecidableEq, Repr

/-- All issues of `updateProductSchema` (params shape first, then body; every
body field optional; `productCode` is not part of the schema). -/
def updateProductIssues (urlOk : String → Bool) (id : String) (b : RawUpdateBody) :
    List ZodIssue :=
  zodObjectIdChecks ["params", "id"] (.jstr id)
    ++ optField
      (zodStringChecks ["body", "name"] 100 "Product name is required"
        "Product name must be less than 100 characters") b.name
    ++ optField
      (zodStringChecks ["body", "description"] 500 "Description is required"
        "Description must be less than 500 characters") b.description
    ++ optField (zodPriceChecks ["body", "price"]) b.price
    ++ optField (zodDiscountChecks ["body", "discount"]) b.discount
    ++ optField (zodUrlChecks urlOk ["body", "image"]) b.image
    ++ optField (zodEnumChecks ["body", "status"] ["In Stock", "Stock Out"]) b.status
    ++ optField (zodObjectIdChecks ["body", "categoryId"]) b.categoryId

/-- Model of `getProductByIdSchema`: just the path identifier. -/
def getProductByIdIssues (id : String) : List ZodIssue :=
  zodObjectIdChecks ["params", "id"] (.jstr id)

/-- Raw create-Category request body. -/
structure RawCategoryBody where
  name : Option JsonVal
  description : Option JsonVal
deriving DecidableEq, Repr

/-- All issues of `createCategorySchema` (description has only a max check). -/
def createCategoryIssues (b : RawCategoryBody) : List ZodIssue :=
  reqField ["body", "name"]
      (zodStringChecks ["body", "name"] 50 "Category name is required"
        "Category name must be less than 50 characters") b.name
    ++ optField
      (fun v =>
        match v with
        | .jstr s =>
          if 200 < s.length then
            [⟨["body", "description"], "Description must be less than 200 characters"⟩]
          else []
        | v => [⟨["body", "description"], "Expected string, received " ++ jsonTypeName v⟩])
      b.description

/-- All issues of `updateCategorySchema`. -/
def updateCategoryIssues (id : String) (b : RawCategoryBody) : List ZodIssue :=
  zodObjectIdChecks ["params", "id"] (.jstr id)
    ++ optField
      (zodStringChecks ["body", "name"] 50 "Category name is required"
        "Category name must be less than 50 characters") b.name
    ++ optField
      (fun v =>
        match v with
        | .jstr s =>
          if 200 < s.length then
            [⟨["body", "description"], "Description must be less than 200 characters"⟩]
          else []
        | v => [⟨["body", "description"], "Expected string, received " ++ jsonTypeName v⟩])
      b.description

/-- Raw listing query (`req.query`: every present value is a string). -/
structure RawQuery where
  page : Option String
  limit : Option String
  search : Option String
  category : Option String
  status : Option String
  sortBy : Option String
  sortOrder : Option String
deriving DecidableEq, Repr

/-- Model of `^\d+$`: at least one character, all decimal digits (`"0"` matches). -/
def digitsOnly (s : String) : Bool := decide (s ≠ "") && s.data.all Char.isDigit

/-- All issues of `paginationSchema`, in shape-key order (`search` is a plain
optional string and can never fail on a query value). -/
def paginationIssues (q : RawQuery) : List ZodIssue :=
  (match q.page with
    | none => []
    | some s => if digitsOnly s then [] else [⟨["query", "page"], "Page must be a positive number"⟩])
    ++ (match q.limit with
      | none => []
      | some s => if digitsOnly s then [] else [⟨["query", "limit"], "Limit must be a positive number"⟩])
    ++ (match q.category with
      | none => []
      | some s => if isValidObjectId s then [] else [⟨["query", "category"], "Invalid ObjectId format"⟩])
    ++ (match q.status with
      | none => []
      | some s => if s ∈ ["In Stock", "Stock Out"] then [] else [⟨["query", "status"], "Invalid enum value"⟩])
    ++ (match q.sortBy with
      | none => []
      | some s =>
        if s ∈ ["name", "price", "createdAt", "updatedAt"] then []
        else [⟨["query", "sortBy"], "Invalid enum value"⟩])
    ++ (match q.sortOrder with
      | none => []
      | some s => if s ∈ ["asc", "desc"] then [] else [⟨["query", "sortOrder"], "Invalid enum value"⟩])

/-- One `details`/`errors` entry: field path joined with `.`, plus message. -/
structure ErrDetail where
  field : String
  message : String
deriving DecidableEq, Repr

/-- The `validate` middleware's mapping of Zod issues to its response body:
`issues.map(err => ({field: err.path.join('.'), message: err.message}))`. -/
def formatIssues (issues : List ZodIssue) : List ErrDetail :=
  issues.map (fun i => ⟨String.intercalate "." i.path, i.message⟩)

/-! ## Error normalizer (`src/middleware/errorHandler.ts`) -/

/-- A failure thrown inside a handler or the store driver.  `ZodError` never
reaches the normalizer (the `validate` middleware responds to it directly).
* `appError` — an `AppError` (message, statusCode, code);
* `dupKey` — a store unique-index violation (`err.code === 11000`);
* `mongooseValidation` — store field-validator failure (`runValidators`);
* `castError` — a store cast failure (malformed id reaching the store);
* `mongoBadValue` — any other store server error (e.g. negative skip),
  which matches no branch of the normalizer. -/
inductive ThrownErr
  | appError (message : String) (statusCode : ℕ) (code : Option String)
  | dupKey (field : String) (value : String)
  | mongooseValidation (details : List ErrDetail)
  | castError (path : String) (kind : String) (value : String)
  | mongoBadValue (message : String)
deriving DecidableEq, Repr

/-- Request metadata echoed into every error envelope. -/
structure ReqMeta where
  path : String
  method : String
  timestamp : String
deriving DecidableEq, Repr

/-- The unified error envelope
`{success:false, error:{type,message,code?,details?}, timestamp, path, method}`
together with the HTTP status it is sent with.  An empty `details` list
models the omitted field. -/
structure ErrorEnvelope where
  statusCode : ℕ
  success : Bool
  errType : String
  message : String
  code : Option String
  details : List ErrDetail
  path : String
  method : String
  timestamp : String
deriving DecidableEq, Repr

/-- Model of `determineErrorType` from the source. -/
def determineErrorType (statusCode : ℕ) : String :=
  if statusCode = 400 then "VALIDATION_ERROR"
  else if statusCode = 401 then "AUTHENTICATION_ERROR"
  else if statusCode = 403 then "AUTHORIZATION_ERROR"
  else if statusCode = 404 then "NOT_FOUND_ERROR"
  else if statusCode = 409 then "DUPLICATE_ERROR"
  else "INTERNAL_SERVER_ERROR"

/-- Model of `errorHandler` from the source, on the failure kinds thrown by this
service (same branch order; the constructors are mutually exclusive).
`dupKey` carries `err.code = 11000` and `mongoBadValue` the server's numeric
code, stringified into the optional `code` field. -/
def errorHandler (err : ThrownErr) (meta : ReqMeta) : ErrorEnvelope :=
  match err with
  | .mongooseValidation details =>
    { statusCode := 400, success := false, errType := "VALIDATION_ERROR",
      message := "Database validation failed", code := none, details := details,
      path := meta.path, method := meta.method, timestamp := meta.timestamp }
  | .castError p kind _ =>
    { statusCode := 400, success := false, errType := "VALIDATION_ERROR",
      message := "Invalid " ++ p, code := none,
      details := [⟨p, "Invalid " ++ kind⟩],
      path := meta.path, method := meta.method, timestamp := meta.timestamp }
  | .dupKey f v =>
    { statusCode := 409, success := false, errType := "DUPLICATE_ERROR",
      message := "Duplicate value for " ++ f, code := some "11000",
      details := [⟨f, f ++ " '" ++ v ++ "' already exists"⟩],
      path := meta.path, method := meta.method, timestamp := meta.timestamp }
  | .appError msg sc c =>
    { statusCode := sc, success := false, errType := determineErrorType sc,
      message := msg, code := c, details := [],
      path := meta.path, method := meta.method, timestamp := meta.timestamp }
  | .mongoBadValue msg =>
    { statusCode := 500, success := false, errType := "INTERNAL_SERVER_ERROR",
      message := msg, code := some "2", details := [],
      path := meta.path, method := meta.method, timestamp := meta.timestamp }

/-- What a handler evaluation produces before the normalizer: an ad-hoc
missing-id guard response, a thrown failure, or a success payload. -/
inductive CtrlOut (α : Type)
  | guard (status : ℕ) (message : String)
  | thrown (e : ThrownErr)
  | ok (payload : α)
deriving DecidableEq

/-- A wire response: the `validate` middleware's own 400 shape, a guard's
ad-hoc shape, the unified error envelope, or a success. -/
inductive Wire (α : Type)
  | mwValidation (status : ℕ) (message : String) (errors : List ErrDetail)
  | guard (status : ℕ) (success : Bool) (message : String)
  | envelope (e : ErrorEnvelope)
  | ok (status : ℕ) (message : String) (payload : α)
deriving DecidableEq

/-- Send a controller outcome to the wire: thrown failures funnel through
`errorHandler` (via `asyncHandler`/`next`); guards were already sent. -/
def pipeCtrl {α : Type} (okStatus : ℕ) (okMessage : String) (meta : ReqMeta) :
    CtrlOut α × Bool → Wire α × Bool
  | (.guard st msg, b) => (.guard st false msg, b)
  | (.thrown e, b) => (.envelope (errorHandler e meta), b)
  | (.ok a, b) => (.ok okStatus okMessage a, b)

/-! ## Store operations (Mongoose over the document store) -/

/-- Model of `Model.findById`: a malformed id fails to cast and throws `CastError`
before any lookup result; a valid-shaped id looks up the collection. -/
def categoryFindById (db : DB) (id : String) : Except ThrownErr (Option CategoryRec) :=
  if isValidObjectId id then .ok (db.categories.find? (fun c => c.id = id))
  else .error (.castError "_id" "ObjectId" id)

def productFindById (db : DB) (id : String) : Except ThrownErr (Option ProductRec) :=
  if isValidObjectId id then .ok (db.products.find? (fun p => p.id = id))
  else .error (.castError "_id" "ObjectId" id)

/-- Does `needle` occur at the head of `hay`? -/
def leadMatch : List Char → List Char → Bool
  | _, [] => true
  | [], _ :: _ => false
  | h :: hs, n :: ns => (h = n) && leadMatch hs ns

/-- Contiguous containment of `needle` in `hay`. -/
def containsSub (needle : List Char) : List Char → Bool
  | [] => leadMatch [] needle
  | h :: t => leadMatch (h :: t) needle || containsSub needle t

/-- Model of `{$regex: search, $options: 'i'}` for a metacharacter-free search string:
case-insensitive substring containment. -/
def containsCI (hay needle : String) : Bool :=
  containsSub (needle.data.map Char.toLower) (hay.data.map Char.toLower)

/-- The Mongoose product-schema field validators (run at create and, with
`runValidators: true`, at update): `price ≥ 0`, `discount ∈ [0,100]`,
`image` matching `/^https?:\/\/.+$/`, `status` in the enum.  Messages are
abbreviations of Mongoose's generated ones. -/
def imageUrlOk (s : String) : Bool :=
  (leadMatch s.data "http://".data && decide (7 < s.length))
    || (leadMatch s.data "https://".data && decide (8 < s.length))

def productValidators (p : ProductRec) : List ErrDetail :=
  (if p.price < 0 then [⟨"price", "price is less than minimum allowed value"⟩] else [])
    ++ (if p.discount < 0 || 100 < p.discount then
        [⟨"discount", "discount is outside allowed range"⟩] else [])
    ++ (if imageUrlOk p.image then [] else [⟨"image", "image does not match pattern"⟩])
    ++ (if p.status ∈ ["In Stock", "Stock Out"] then []
        else [⟨"status", "status is not a valid enum value"⟩])

/-! ## Category controllers (`src/controllers/category.ts`) -/

def jsonStr? : Option JsonVal → Option String
  | some (.jstr s) => some s
  | _ => none

def jsonNum? : Option JsonVal → Option ℚ
  | some (.jnum q) => some q
  | _ => none

/-- Model of `createCategory`: `Category.create({name, description})`; the store's
unique index on `name` raises `E11000` on a duplicate. -/
def createCategory (db : DB) (freshId : String) (now : ℕ) (b : RawCategoryBody) :
    CtrlOut (DB × CategoryRec) × Bool :=
  let name := (jsonStr? b.name).getD ""
  let description := jsonStr? b.description
  if db.categories.any (fun c => c.name = name) then
    (.thrown (.dupKey "name" name), true)
  else
    let newCat : CategoryRec :=
      { id := freshId, name := name, description := description,
        createdAt := now, updatedAt := now }
    (.ok ({ db with categories := db.categories ++ [newCat] }, newCat), true)

/-- Model of `getCategoryById`, including the ad-hoc missing-id guard (unreachable
through Express routing, which never matches `/:id` against an empty
segment). -/
def getCategoryById (db : DB) (id : String) : CtrlOut CategoryRec × Bool :=
  if id = "" then (.guard 400 "Category ID is required", false)
  else
    match categoryFindById db id with
    | .error e => (.thrown e, true)
    | .ok none => (.thrown (.appError "Category not found" 404 (some "NOT_FOUND_ERROR")), true)
    | .ok (some c) => (.ok c, true)

/-- Model of `updateCategoryById`: guard, then
`findByIdAndUpdate(id, {...updateData, updatedAt}, {new, runValidators})`;
the unique index on `name` still applies to updates. -/
def updateCategoryById (db : DB) (now : ℕ) (id : String) (b : RawCategoryBody) :
    CtrlOut (DB × CategoryRec) × Bool :=
  if id = "" then (.guard 400 "Category ID is required", false)
  else if ¬ isValidObjectId id then (.thrown (.castError "_id" "ObjectId" id), true)
  else
    match db.categories.find? (fun c => c.id = id) with
    | none => (.thrown (.appError "Category not found" 404 (some "NOT_FOUND_ERROR")), true)
    | some c =>
      let newName := (jsonStr? b.name).getD c.name
      if db.categories.any (fun x => x.name = newName && !(x.id = id)) then
        (.thrown (.dupKey "name" newName), true)
      else
        let c' : CategoryRec :=
          { c with
            name := newName
            description := match jsonStr? b.description with
              | some d => some d
              | none => c.description
            updatedAt := now }
        (.ok ({ db with categories := db.categories.map (fun x => if x.id = id then c' else x) }, c'),
          true)

/-- Model of `deleteCategoryById`: guard, then `findByIdAndDelete` (no guard against
orphaning referencing products). -/
def deleteCategoryById (db : DB) (id : String) : CtrlOut DB × Bool :=
  if id = "" then (.guard 400 "Category ID is required", false)
  else
    match categoryFindById db id with
    | .error e => (.thrown e, true)
    | .ok none => (.thrown (.appError "Category not found" 404 (some "NOT_FOUND_ERROR")), true)
    | .ok (some _) =>
      (.ok { db with categories := db.categories.filter (fun x => decide (x.id ≠ id)) }, true)

/-! ## Listing: filter, sort, pagination window -/

/-- The product listing filter: `$or` of name/description matches when
`search` is truthy, exact category and status matches when truthy. -/
def matchesProductFilter (q : RawQuery) (p : ProductRec) : Bool :=
  (match q.search with
    | none => true
    | some s => if s = "" then true else containsCI p.name s || containsCI p.description s)
    && (match q.category with
      | none => true
      | some c => if c = "" then true else decide (p.category = c))
    && (match q.status with
      | none => true
      | some st => if st = "" then true else decide (p.status = st))

/-- The category listing filter: `$or` of name/description matches only
(a missing `description` field never matches a regex). -/
def matchesCategoryFilter (q : RawQuery) (c : CategoryRec) : Bool :=
  match q.search with
  | none => true
  | some s =>
    if s = "" then true
    else containsCI c.name s
      || (match c.description with | some d => containsCI d s | none => false)

/-- Insertion sort, modelling the store's single-key sort (only the
membership and length of the result matter to the claims). -/
def insertSorted {α : Type} (le : α → α → Bool) (x : α) : List α → List α
  | [] => [x]
  | y :: ys => if le x y then x :: y :: ys else y :: insertSorted le x ys

def sortList {α : Type} (le : α → α → Bool) : List α → List α
  | [] => []
  | x :: xs => insertSorted le x (sortList le xs)

theorem length_insertSorted {α : Type} (le : α → α → Bool) (x : α) :
    ∀ l : List α, (insertSorted le x l).length = l.length + 1 := by
  intro l
  induction l with
  | nil => rfl
  | cons y ys ih =>
    simp only [insertSorted]
    by_cases h : le x y = true
    · rw [if_pos h]; rfl
    · rw [if_neg h]; simp [ih]

theorem length_sortList {α : Type} (le : α → α → Bool) :
    ∀ l : List α, (sortList le l).length = l.length := by
  intro l
  induction l with
  | nil => rfl
  | cons x xs ih => simp [sortList, length_insertSorted, ih]

/-- Ascending comparison on the sort key (`sortBy` is one of the validated
enum values; anything else sorts by `createdAt`, the source's default). -/
def productKeyLe (key : String) (a b : ProductRec) : Bool :=
  if key = "name" then decide (a.name ≤ b.name)
  else if key = "price" then decide (a.price ≤ b.price)
  else if key = "updatedAt" then decide (a.updatedAt ≤ b.updatedAt)
  else decide (a.createdAt ≤ b.createdAt)

/-- Model of `sort[sortBy || 'createdAt'] = sortOrder === 'asc' ? 1 : -1`. -/
def productSortLe (key : String) (asc : Bool) (a b : ProductRec) : Bool :=
  if asc then productKeyLe key a b else productKeyLe key b a

/-- The pagination envelope common to both listings (`totalItems` is the
source's `totalProducts`/`totalCategories` field). -/
structure PageInfo where
  currentPage : JVal
  totalPages : JNum
  totalItems : ℕ
  limit : JVal
  hasNextPage : Bool
  hasPrevPage : Bool
deriving DecidableEq, Repr

structure ProductListResp where
  data : List PricedProduct
  pagination : PageInfo
  filters : Option String × Option String × Option String
  sortEcho : String × String
deriving DecidableEq, Repr

structure CategoryListResp where
  data : List CategoryRec
  pagination : PageInfo
deriving DecidableEq, Repr

/-- The raw `page`/`limit` value seen by the controller: the destructuring
default when absent, otherwise the raw query string. -/
def rawPageVal (v : Option String) (d : ℕ) : JVal :=
  match v with
  | none => .num d
  | some s => .str s

/-- Model of `page || 1` / `limit || 10` on that value (note: the string `"0"` is
truthy, so the fallback does not fire for it). -/
def effVal (v : Option String) (d : ℕ) : JVal := jsOr (rawPageVal v d) d

/-- The store's skip/limit window: a negative skip is rejected by the server
(`BadValue`), and `limit(0)` means no limit. -/
def mongoWindow {α : Type} (l : List α) (skip : ℤ) (limit : ℕ) :
    Except ThrownErr (List α) :=
  if skip < 0 then
    .error (.mongoBadValue "BadValue: skip value must be non-negative")
  else if limit = 0 then .ok (l.drop skip.toNat)
  else .ok ((l.drop skip.toNat).take limit)

/-! ## Product controllers (`src/controllers/product.ts`) -/

/-- Model of `getProducts`: build the filter, sort, window and envelope from the raw
(string-valued) query.  A truthy malformed `category` filter value fails to
cast inside the store. -/
def getProducts (db : DB) (q : RawQuery) : CtrlOut ProductListResp × Bool :=
  let badCategory : Bool := match q.category with
    | some c => !(c = "") && !(isValidObjectId c)
    | none => false
  if badCategory then
    (.thrown (.castError "category" "ObjectId" ((q.category).getD "")), true)
  else
    let filtered := db.products.filter (matchesProductFilter q)
    let sortByV := (q.sortBy).getD "createdAt"
    let sortOrderV := (q.sortOrder).getD "desc"
    let sortKey := if sortByV = "" then "createdAt" else sortByV
    let sorted := sortList (productSortLe sortKey (sortOrderV = "asc")) filtered
    let pageV := effVal q.page 1
    let limitV := effVal q.limit 10
    let pageQ := jsToNum pageV
    let limitQ := jsToNum limitV
    let skipQ : ℤ := ((pageQ : ℤ) - 1) * (limitQ : ℤ)
    match mongoWindow sorted skipQ limitQ with
    | .error e => (.thrown e, true)
    | .ok window =>
      let total := filtered.length
      let totalPages := jsCeilDiv total limitQ
      (.ok
        { data := window.map calculatePricing
          pagination :=
            { currentPage := pageV, totalPages := totalPages, totalItems := total,
              limit := limitV, hasNextPage := jsLtNum pageQ totalPages,
              hasPrevPage := decide (1 < pageQ) }
          filters := (q.search, q.category, q.status)
          sortEcho := (sortByV, sortOrderV) }, true)

/-- Model of `getCategory` (the category listing): same pagination, fixed sort
`{createdAt: -1}`, search-only filter. -/
def getCategory (db : DB) (q : RawQuery) : CtrlOut CategoryListResp × Bool :=
  let filtered := db.categories.filter (matchesCategoryFilter q)
  let sorted := sortList (fun a b : CategoryRec => decide (b.createdAt ≤ a.createdAt)) filtered
  let pageV := effVal q.page 1
  let limitV := effVal q.limit 10
  let pageQ := jsToNum pageV
  let limitQ := jsToNum limitV
  let skipQ : ℤ := ((pageQ : ℤ) - 1) * (limitQ : ℤ)
  match mongoWindow sorted skipQ limitQ with
  | .error e => (.thrown e, true)
  | .ok window =>
    let total := filtered.length
    let totalPages := jsCeilDiv total limitQ
    (.ok
      { data := window
        pagination :=
          { currentPage := pageV, totalPages := totalPages, totalItems := total,
            limit := limitV, hasNextPage := jsLtNum pageQ totalPages,
            hasPrevPage := decide (1 < pageQ) } }, true)

/-- Model of `createProduct`: referenced-category check, application-level
`(name, category)` duplicate check (a `createValidationError`, i.e. an
`AppError` with status 400), code generation, store insert (schema
validators, then the unique index on `productCode`). -/
def createProduct (db : DB) (freshId hash7 timeStr : String) (now : ℕ)
    (b : RawCreateBody) : CtrlOut (DB × PricedProduct) × Bool :=
  let name := (jsonStr? b.name).getD ""
  let categoryId := (jsonStr? b.categoryId).getD ""
  match categoryFindById db categoryId with
  | .error e => (.thrown e, true)
  | .ok none => (.thrown (.appError "Category not found" 404 (some "NOT_FOUND_ERROR")), true)
  | .ok (some cat) =>
    if db.products.any (fun p => p.name = name && p.category = categoryId) then
      (.thrown (.appError "Product with this name already exists in this category" 400
        (some "VALIDATION_ERROR")), true)
    else
      let code := generateProductCode hash7 timeStr name
      let newP : ProductRec :=
        { id := freshId, name := name,
          description := (jsonStr? b.description).getD "",
          price := (jsonNum? b.price).getD 0,
          discount := (jsonNum? b.discount).getD 0,
          image := (jsonStr? b.image).getD "",
          status := (jsonStr? b.status).getD "In Stock",
          productCode := code, category := categoryId, categoryName := cat.name,
          createdAt := now, updatedAt := now }
      if productValidators newP ≠ [] then
        (.thrown (.mongooseValidation (productValidators newP)), true)
      else if db.products.any (fun p => p.productCode = code) then
        (.thrown (.dupKey "productCode" code), true)
      else
        (.ok ({ db with products := db.products ++ [newP] }, calculatePricing newP), true)

/-- Model of `getProductById`. -/
def getProductById (db : DB) (id : String) : CtrlOut PricedProduct × Bool :=
  match productFindById db id with
  | .error e => (.thrown e, true)
  | .ok none => (.thrown (.appError "Product not found" 404 (some "NOT_FOUND_ERROR")), true)
  | .ok (some p) => (.ok (calculatePricing p), true)

/-- Model of `findByIdAndUpdate(id, updateData, ...)` field application: `updateData`
is the *raw* request body (plus the controller's `categoryName`/`category`
patch and `updatedAt`), so every schema path present in the body is `$set` —
including `productCode`, which the update schema neither validates nor
removes from `req.body`. -/
def applyProductUpdate (now : ℕ) (b : RawUpdateBody)
    (catPatch : Option (String × String)) (p : ProductRec) : ProductRec :=
  { p with
    name := (jsonStr? b.name).getD p.name
    description := (jsonStr? b.description).getD p.description
    price := (jsonNum? b.price).getD p.price
    discount := (jsonNum? b.discount).getD p.discount
    image := (jsonStr? b.image).getD p.image
    status := (jsonStr? b.status).getD p.status
    productCode := (jsonStr? b.productCode).getD p.productCode
    category := match catPatch with | some (cid, _) => cid | none => p.category
    categoryName := match catPatch with | some (_, nm) => nm | none => p.categoryName
    updatedAt := now }

/-- Tail of `updateProduct`: run the store update with `runValidators`, the
`productCode` unique index, and return the updated record with pricing. -/
def finishProductUpdate (db : DB) (now : ℕ) (id : String) (b : RawUpdateBody)
    (catPatch : Option (String × String)) (existing : ProductRec) :
    CtrlOut (DB × PricedProduct) × Bool :=
  let p' := applyProductUpdate now b catPatch existing
  if productValidators p' ≠ [] then
    (.thrown (.mongooseValidation (productValidators p')), true)
  else if db.products.any (fun x => x.productCode = p'.productCode && !(x.id = id)) then
    (.thrown (.dupKey "productCode" p'.productCode), true)
  else
    (.ok ({ db with products := db.products.map (fun x => if x.id = id then p' else x) },
      calculatePricing p'), true)

/-- Model of `updateProduct`: existence check, then — if `updateData.categoryId` is
truthy — referenced-category check and `categoryName` refresh, then the
store update. -/
def updateProduct (db : DB) (now : ℕ) (id : String) (b : RawUpdateBody) :
    CtrlOut (DB × PricedProduct) × Bool :=
  match productFindById db id with
  | .error e => (.thrown e, true)
  | .ok none => (.thrown (.appError "Product not found" 404 (some "NOT_FOUND_ERROR")), true)
  | .ok (some existing) =>
    match jsonStr? b.categoryId with
    | some cid =>
      if cid = "" then finishProductUpdate db now id b none existing
      else
        match categoryFindById db cid with
        | .error e => (.thrown e, true)
        | .ok none =>
          (.thrown (.appError "Category not found" 404 (some "NOT_FOUND_ERROR")), true)
        | .ok (some cat) => finishProductUpdate db now id b (some (cid, cat.name)) existing
    | none => finishProductUpdate db now id b none existing

/-- Model of `deleteProduct`: `findByIdAndDelete`. -/
def deleteProduct (db : DB) (id : String) : CtrlOut DB × Bool :=
  match productFindById db id with
  | .error e => (.thrown e, true)
  | .ok none => (.thrown (.appError "Product not found" 404 (some "NOT_FOUND_ERROR")), true)
  | .ok (some _) =>
    (.ok { db with products := db.products.filter (fun x => decide (x.id ≠ id)) }, true)

/-! ## Routers (`src/routes/product.ts`, `src/routes/category.ts`)

Each `run…` function is one endpoint's middleware chain: the validation
middleware (when the router installs one), then the controller, with thrown
failures normalized by `errorHandler`.  The boolean tracks whether the store
was reached. -/

/-- The `validate` middleware factory: on any Zod issue it responds *itself*
with `res.status(400).json({message: 'Validation failed', errors})` — it
does not call `next(error)`, so Zod failures never reach `errorHandler`. -/
def validateMw {α : Type} (issues : List ZodIssue) (proceed : Wire α × Bool) :
    Wire α × Bool :=
  if issues = [] then proceed
  else (.mwValidation 400 "Validation failed" (formatIssues issues), false)

/-- Model of `POST /product` — `validateCreateProduct, createProduct`. -/
def runCreateProduct (urlOk : String → Bool) (db : DB) (meta : ReqMeta)
    (freshId hash7 timeStr : String) (now : ℕ) (b : RawCreateBody) :
    Wire (DB × PricedProduct) × Bool :=
  validateMw (createProductIssues urlOk b)
    (pipeCtrl 201 "Product created successfully" meta
      (createProduct db freshId hash7 timeStr now b))

/-- Model of `GET /product` — `validatePagination, getProducts`. -/
def runGetProducts (db : DB) (meta : ReqMeta) (q : RawQuery) :
    Wire ProductListResp × Bool :=
  validateMw (paginationIssues q)
    (pipeCtrl 200 "Products retrieved successfully" meta (getProducts db q))

/-- Model of `GET /product/:id` — `validateGetProductById, getProductById`. -/
def runGetProductById (db : DB) (meta : ReqMeta) (id : String) :
    Wire PricedProduct × Bool :=
  validateMw (getProductByIdIssues id)
    (pipeCtrl 200 "Product retrieved successfully" meta (getProductById db id))

/-- Model of `PUT /product/:id` — `validateUpdateProduct, updateProduct`. -/
def runUpdateProduct (urlOk : String → Bool) (db : DB) (meta : ReqMeta) (now : ℕ)
    (id : String) (b : RawUpdateBody) : Wire (DB × PricedProduct) × Bool :=
  validateMw (updateProductIssues urlOk id b)
    (pipeCtrl 200 "Product updated successfully" meta (updateProduct db now id b))

/-- Model of `DELETE /product/:id` — `validateGetProductById, deleteProduct`. -/
def runDeleteProduct (db : DB) (meta : ReqMeta) (id : String) : Wire DB × Bool :=
  validateMw (getProductByIdIssues id)
    (pipeCtrl 200 "Product deleted successfully" meta (deleteProduct db id))

/-- Model of `POST /category` — `validateCreateCategory, createCategory`. -/
def runCreateCategory (db : DB) (meta : ReqMeta) (freshId : String) (now : ℕ)
    (b : RawCategoryBody) : Wire (DB × CategoryRec) × Bool :=
  validateMw (createCategoryIssues b)
    (pipeCtrl 201 "Category created successfully" meta (createCategory db freshId now b))

/-- Model of `GET /category` — `validatePagination, getCategory`. -/
def runGetCategory (db : DB) (meta : ReqMeta) (q : RawQuery) :
    Wire CategoryListResp × Bool :=
  validateMw (paginationIssues q)
    (pipeCtrl 200 "Categories retrieved successfully" meta (getCategory db q))

/-- Model of `GET /category/:id` — **no validation middleware** on this route. -/
def runGetCategoryById (db : DB) (meta : ReqMeta) (id : String) :
    Wire CategoryRec × Bool :=
  pipeCtrl 200 "Category retrieved successfully" meta (getCategoryById db id)

/-- Model of `PUT /category/:id` — `validateUpdateCategory, updateCategoryById`. -/
def runUpdateCategoryById (db : DB) (meta : ReqMeta) (now : ℕ) (id : String)
    (b : RawCategoryBody) : Wire (DB × CategoryRec) × Bool :=
  validateMw (updateCategoryIssues id b)
    (pipeCtrl 200 "Category updated successfully" meta (updateCategoryById db now id b))

/-- Model of `DELETE /category/:id` — **no validation middleware** on this route. -/
def runDeleteCategoryById (db : DB) (meta : ReqMeta) (id : String) :
    Wire DB × Bool :=
  pipeCtrl 200 "Category deleted successfully" meta (deleteCategoryById db id)

/-! ## Claim theorems -/

/-- C4: a second Product with an existing `(name, categoryId)` pair is caught
by the application-level pre-insert check and surfaces as a 400
`VALIDATION_ERROR` (an `AppError`), while a second Category with an existing
`name` hits the store unique index and the normalizer maps it to a 409
`DUPLICATE_ERROR` — for every store state and every such duplicate attempt. -/
theorem c4_duplicate_400_vs_409 (db : DB) (meta : ReqMeta)
    (freshId hash7 timeStr freshId2 : String) (now : ℕ)
    (b : RawCreateBody) (name cid : String)
    (hname : b.name = some (.jstr name)) (hcid : b.categoryId = some (.jstr cid))
    (hvalid : isValidObjectId cid = true)
    (hcat : ∃ c ∈ db.categories, c.id = cid)
    (hdup : ∃ p ∈ db.products, p.name = name ∧ p.category = cid)
    (cb : RawCategoryBody) (cname : String) (hcname : cb.name = some (.jstr cname))
    (hcdup : ∃ c ∈ db.categories, c.name = cname) :
    (createProduct db freshId hash7 timeStr now b
        = (.thrown (.appError "Product with this name already exists in this category" 400
            (some "VALIDATION_ERROR")), true)
      ∧ (errorHandler (.appError "Product with this name already exists in this category" 400
          (some "VALIDATION_ERROR")) meta).statusCode = 400
      ∧ (errorHandler (.appError "Product with this name already exists in this category" 400
          (some "VALIDATION_ERROR")) meta).errType = "VALIDATION_ERROR")
    ∧ (createCategory db freshId2 now cb = (.thrown (.dupKey "name" cname), true)
      ∧ (errorHandler (.dupKey "name" cname) meta).statusCode = 409
      ∧ (errorHandler (.dupKey "name" cname) meta).errType = "DUPLICATE_ERROR") := by
  constructor
  · refine ⟨?_, rfl, rfl⟩
    have hfind : (db.categories.find? (fun c => c.id = cid)).isSome := by
      rw [List.find?_isSome]
      obtain ⟨c0, hmem, hid⟩ := hcat
      exact ⟨c0, hmem, by simp [hid]⟩
    obtain ⟨cat, hcat'⟩ := Option.isSome_iff_exists.mp hfind
    have hany : db.products.any (fun p => p.name = name && p.category = cid) = true := by
      rw [List.any_eq_true]
      obtain ⟨p0, hmem, h1, h2⟩ := hdup
      exact ⟨p0, hmem, by simp [h1, h2]⟩
    simp only [createProduct, hname, hcid, jsonStr?, Option.getD_some,
      categoryFindById, hvalid, if_true, hcat', hany, if_pos]
  · refine ⟨?_, rfl, rfl⟩
    have hany : db.categories.any (fun c => c.name = cname) = true := by
      rw [List.any_eq_true]
      obtain ⟨c0, hmem, h1⟩ := hcdup
      exact ⟨c0, hmem, by simp [h1]⟩
    simp only [createCategory, hcname, jsonStr?, Option.getD_some, hany, if_pos]

/-- A small concrete store for witnesses and counterexamples: one category
(24-hex id) and one product in it. -/
def theCatId : String := "cccccccccccccccccccccccc"

def theProdId : String := "aaaaaaaaaaaaaaaaaaaaaaaa"

def theCat : CategoryRec :=
  { id := theCatId, name := "Phones", description := none, createdAt := 0, updatedAt := 0 }

def theProd : ProductRec :=
  { id := theProdId, name := "Pixel", description := "a phone", price := 10,
    discount := 0, image := "http://img.example", status := "In Stock",
    productCode := "OLDCODE", category := theCatId, categoryName := "Phones",
    createdAt := 0, updatedAt := 0 }

def theDB : DB := { categories := [theCat], products := [theProd] }

def theMeta : ReqMeta := { path := "/x", method := "POST", timestamp := "T" }

/-- Witness for C4: re-creating `("Pixel", theCatId)` and re-creating the
category name `"Phones"` on the concrete store. -/
theorem c4_duplicate_400_vs_409_witness :
    (({ name := some (.jstr "Pixel"), description := some (.jstr "a phone"),
        price := some (.jnum 10), discount := none, image := some (.jstr "http://img.example"),
        status := none, categoryId := some (.jstr theCatId) } : RawCreateBody).name
          = some (.jstr "Pixel")
      ∧ isValidObjectId theCatId = true
      ∧ (∃ c ∈ theDB.categories, c.id = theCatId)
      ∧ (∃ p ∈ theDB.products, p.name = "Pixel" ∧ p.category = theCatId)
      ∧ (∃ c ∈ theDB.categories, c.name = "Phones"))
    ∧ (createProduct theDB "f1" "h" "t" 9
          { name := some (.jstr "Pixel"), description := some (.jstr "a phone"),
            price := some (.jnum 10), discount := none,
            image := some (.jstr "http://img.example"),
            status := none, categoryId := some (.jstr theCatId) }
        = (.thrown (.appError "Product with this name already exists in this category" 400
            (some "VALIDATION_ERROR")), true)
      ∧ (errorHandler (.appError "Product with this name already exists in this category" 400
          (some "VALIDATION_ERROR")) theMeta).statusCode = 400
      ∧ (errorHandler (.appError "Product with this name already exists in this category" 400
          (some "VALIDATION_ERROR")) theMeta).errType = "VALIDATION_ERROR")
    ∧ (createCategory theDB "f2" 9 { name := some (.jstr "Phones"), description := none }
        = (.thrown (.dupKey "name" "Phones"), true)
      ∧ (errorHandler (.dupKey "name" "Phones") theMeta).statusCode = 409
      ∧ (errorHandler (.dupKey "name" "Phones") theMeta).errType = "DUPLICATE_ERROR") :=
  by
  have hmain := c4_duplicate_400_vs_409 theDB theMeta "f1" "h" "t" "f2" 9
    { name := some (.jstr "Pixel"), description := some (.jstr "a phone"),
      price := some (.jnum 10), discount := none,
      image := some (.jstr "http://img.example"),
      status := none, categoryId := some (.jstr theCatId) } "Pixel" theCatId rfl rfl
    (by decide) (by decide) (by decide)
    { name := some (.jstr "Phones"), description := none } "Phones" rfl (by decide)
  exact ⟨⟨rfl, by decide, by decide, by decide, by decide⟩, hmain.1, hmain.2⟩

/-- C9: an update-Product request with a valid `categoryId` of an existing
Category refreshes the stored `categoryName` to that Category's current
name; and *no* category update ever touches the products collection, so a
later rename of the Category leaves every Product's stored `categoryName`
unchanged. -/
theorem c9_categoryName_refresh_and_frame (db : DB) (now : ℕ) (id cid : String)
    (b : RawUpdateBody) (existing : ProductRec) (cat : CategoryRec)
    (hvalid : isValidObjectId id = true)
    (hpfind : db.products.find? (fun p => p.id = id) = some existing)
    (hb : jsonStr? b.categoryId = some cid) (hcid : ¬ cid = "")
    (hcvalid : isValidObjectId cid = true)
    (hcfind : db.categories.find? (fun c => c.id = cid) = some cat)
    (hval : productValidators (applyProductUpdate now b (some (cid, cat.name)) existing) = [])
    (huniq : db.products.any
      (fun x => x.productCode
          = (applyProductUpdate now b (some (cid, cat.name)) existing).productCode
        && !(x.id = id)) = false) :
    (updateProduct db now id b
        = (.ok
            ({ db with
                products := db.products.map (fun x =>
                  if x.id = id then applyProductUpdate now b (some (cid, cat.name)) existing
                  else x) },
              calculatePricing (applyProductUpdate now b (some (cid, cat.name)) existing)),
          true)
      ∧ (applyProductUpdate now b (some (cid, cat.name)) existing).categoryName = cat.name)
    ∧ (∀ (db₀ : DB) (now₀ : ℕ) (id₀ : String) (b₀ : RawCategoryBody)
        (db₁ : DB) (c₁ : CategoryRec) (t : Bool),
        updateCategoryById db₀ now₀ id₀ b₀ = (.ok (db₁, c₁), t) →
        db₁.products = db₀.products) := by
  constructor
  · constructor
    · simp only [updateProduct, productFindById, hvalid, if_true, hpfind, hb,
        if_neg hcid, categoryFindById, hcvalid, hcfind, finishProductUpdate,
        hval, huniq]
      simp
    · rfl
  · intro db₀ now₀ id₀ b₀ db₁ c₁ t h
    simp only [updateCategoryById] at h
    split at h
    · exact absurd h (by simp)
    · split at h
      · exact absurd h (by simp)
      · split at h
        · exact absurd h (by simp)
        · split at h
          · exact absurd h (by simp)
          · rw [Prod.mk.injEq, CtrlOut.ok.injEq, Prod.mk.injEq] at h
            rw [← h.1.1]

def theCatId2 : String := "dddddddddddddddddddddddd"

def theCat2 : CategoryRec :=
  { id := theCatId2, name := "Tablets", description := none, createdAt := 1, updatedAt := 1 }

/-- Store `theDB` extended with a second category, for the C9 witness. -/
def theDB2 : DB := { categories := [theCat, theCat2], products := [theProd] }

/-- Witness for C9: moving `theProd` to a second category refreshes its
stored `categoryName`, and renaming a category never touches products. -/
theorem c9_categoryName_refresh_and_frame_witness :
    (isValidObjectId theProdId = true
      ∧ theDB2.products.find? (fun p => p.id = theProdId) = some theProd
      ∧ jsonStr? (some (.jstr theCatId2)) = some theCatId2
      ∧ ¬ theCatId2 = ""
      ∧ isValidObjectId theCatId2 = true
      ∧ theDB2.categories.find? (fun c => c.id = theCatId2) = some theCat2)
    ∧ ((updateProduct theDB2 7 theProdId
          { name := none, description := none, price := none, discount := none,
            image := none, status := none, categoryId := some (.jstr theCatId2),
            productCode := none }
        = (.ok
            ({ theDB2 with
                products := theDB2.products.map (fun x =>
                  if x.id = theProdId then
                    applyProductUpdate 7
                      { name := none, description := none, price := none, discount := none,
                        image := none, status := none, categoryId := some (.jstr theCatId2),
                        productCode := none } (some (theCatId2, theCat2.name)) theProd
                  else x) },
              calculatePricing (applyProductUpdate 7
                { name := none, description := none, price := none, discount := none,
                  image := none, status := none, categoryId := some (.jstr theCatId2),
                  productCode := none } (some (theCatId2, theCat2.name)) theProd)),
          true)
      ∧ (applyProductUpdate 7
          { name := none, description := none, price := none, discount := none,
            image := none, status := none, categoryId := some (.jstr theCatId2),
            productCode := none } (some (theCatId2, theCat2.name)) theProd).categoryName
          = theCat2.name)
      ∧ (∀ (db₀ : DB) (now₀ : ℕ) (id₀ : String) (b₀ : RawCategoryBody)
          (db₁ : DB) (c₁ : CategoryRec) (t : Bool),
          updateCategoryById db₀ now₀ id₀ b₀ = (.ok (db₁, c₁), t) →
          db₁.products = db₀.products)) :=
  ⟨⟨by decide, by decide, rfl, by decide, by decide, by decide⟩,
    c9_categoryName_refresh_and_frame theDB2 7 theProdId theCatId2 _ theProd theCat2
      (by decide) (by decide) rfl (by decide) (by decide) (by decide) (by decide) (by decide)⟩

/-- The update body of the C8 failing input: only the unknown key
`productCode`, which the update schema neither validates nor strips. -/
def c8Body : RawUpdateBody :=
  { name := none, description := none, price := none, discount := none,
    image := none, status := none, categoryId := none,
    productCode := some (.jstr "HACKED") }

/-- C8 (failing input): a `PUT /product/:id` whose body is
`{"productCode": "HACKED"}` passes schema validation (all schema fields are
optional and unknown keys are not rejected), reaches the store, and
*overwrites* the stored `productCode` — because the controller passes the
raw `req.body` (not the schema-stripped parse result) to
`findByIdAndUpdate`.  This contradicts the declared immutability of
`productCode`. -/
theorem c8_productCode_overwritten (urlOk : String → Bool) :
    updateProductIssues urlOk theProdId c8Body = []
      ∧ runUpdateProduct urlOk theDB theMeta 5 theProdId c8Body
          = (.ok 200 "Product updated successfully"
              ({ theDB with products := [{ theProd with productCode := "HACKED", updatedAt := 5 }] },
                calculatePricing { theProd with productCode := "HACKED", updatedAt := 5 }),
            true)
      ∧ theProd.productCode = "OLDCODE"
      ∧ ({ theProd with productCode := "HACKED", updatedAt := 5 } : ProductRec).productCode
          = "HACKED" := by
  refine ⟨rfl, ?_, rfl, rfl⟩
  rfl

/-- Shape test: is a wire response the unified error envelope produced by the
normalizer? -/
def isEnvelope {α : Type} : Wire α → Bool
  | .envelope _ => true
  | _ => false

/-- C5 (amended): every schema violation yields status 400 with one
`{field, message}` entry per violated field, all violations aggregated — but
the response is the `validate` middleware's own ad-hoc
`{message: 'Validation failed', errors}` shape, emitted *without* the error
normalizer and without the unified envelope; and the category controllers
contain three (not two) ad-hoc missing-id guards. -/
theorem c5_validation_aggregation_adhoc (urlOk : String → Bool) (db : DB)
    (meta : ReqMeta) (freshId hash7 timeStr : String) (now : ℕ)
    (b : RawCreateBody) (h : ¬ createProductIssues urlOk b = []) :
    runCreateProduct urlOk db meta freshId hash7 timeStr now b
        = (.mwValidation 400 "Validation failed"
            (formatIssues (createProductIssues urlOk b)), false)
      ∧ (formatIssues (createProductIssues urlOk b)).length
          = (createProductIssues urlOk b).length
      ∧ (∀ i ∈ createProductIssues urlOk b,
          (⟨String.intercalate "." i.path, i.message⟩ : ErrDetail)
            ∈ formatIssues (createProductIssues urlOk b))
      ∧ getCategoryById db "" = (.guard 400 "Category ID is required", false)
      ∧ (∀ b' : RawCategoryBody,
          updateCategoryById db now "" b' = (.guard 400 "Category ID is required", false))
      ∧ deleteCategoryById db "" = (.guard 400 "Category ID is required", false) := by
  refine ⟨?_, List.length_map _ _, ?_, rfl, fun b' => rfl, rfl⟩
  · simp only [runCreateProduct, validateMw, if_neg h]
  · intro i hi
    exact List.mem_map_of_mem _ hi

/-- Witness for C5 (amended) at a two-violation body. -/
theorem c5_validation_aggregation_adhoc_witness :
    (¬ createProductIssues (fun s => leadMatch s.data "http".data)
        { name := some (.jstr ""), description := some (.jstr "d"),
          price := some (.jnum (-5)), discount := none,
          image := some (.jstr "http://x"), status := none,
          categoryId := some (.jstr theCatId) } = [])
      ∧ (runCreateProduct (fun s => leadMatch s.data "http".data) theDB theMeta "f" "h" "t" 0
            { name := some (.jstr ""), description := some (.jstr "d"),
              price := some (.jnum (-5)), discount := none,
              image := some (.jstr "http://x"), status := none,
              categoryId := some (.jstr theCatId) }
          = (.mwValidation 400 "Validation failed"
              (formatIssues (createProductIssues (fun s => leadMatch s.data "http".data)
                { name := some (.jstr ""), description := some (.jstr "d"),
                  price := some (.jnum (-5)), discount := none,
                  image := some (.jstr "http://x"), status := none,
                  categoryId := some (.jstr theCatId) })), false)
        ∧ (formatIssues (createProductIssues (fun s => leadMatch s.data "http".data)
            { name := some (.jstr ""), description := some (.jstr "d"),
              price := some (.jnum (-5)), discount := none,
              image := some (.jstr "http://x"), status := none,
              categoryId := some (.jstr theCatId) })).length
            = (createProductIssues (fun s => leadMatch s.data "http".data)
              { name := some (.jstr ""), description := some (.jstr "d"),
                price := some (.jnum (-5)), discount := none,
                image := some (.jstr "http://x"), status := none,
                categoryId := some (.jstr theCatId) }).length
        ∧ (∀ i ∈ createProductIssues (fun s => leadMatch s.data "http".data)
              { name := some (.jstr ""), description := some (.jstr "d"),
                price := some (.jnum (-5)), discount := none,
                image := some (.jstr "http://x"), status := none,
                categoryId := some (.jstr theCatId) },
            (⟨String.intercalate "." i.path, i.message⟩ : ErrDetail)
              ∈ formatIssues (createProductIssues (fun s => leadMatch s.data "http".data)
                { name := some (.jstr ""), description := some (.jstr "d"),
                  price := some (.jnum (-5)), discount := none,
                  image := some (.jstr "http://x"), status := none,
                  categoryId := some (.jstr theCatId) }))
        ∧ getCategoryById theDB "" = (.guard 400 "Category ID is required", false)
        ∧ (∀ b' : RawCategoryBody,
            updateCategoryById theDB 0 "" b' = (.guard 400 "Category ID is required", false))
        ∧ deleteCategoryById theDB "" = (.guard 400 "Category ID is required", false)) :=
  ⟨by decide,
    c5_validation_aggregation_adhoc (fun s => leadMatch s.data "http".data)
      theDB theMeta "f" "h" "t" 0 _ (by decide)⟩

/-- C5 counterexample: a schema violation is answered by the middleware's own
`{message, errors}` shape — it is not the unified envelope and carries no
`error.type` — refuting "emitted through the single error normalizer in the
unified error envelope". -/
theorem c5_counterexample_not_envelope :
    runCreateProduct (fun s => leadMatch s.data "http".data) theDB theMeta "f" "h" "t" 0
        { name := some (.jstr ""), description := some (.jstr "d"),
          price := some (.jnum (-5)), discount := none,
          image := some (.jstr "http://x"), status := none,
          categoryId := some (.jstr theCatId) }
      = (.mwValidation 400 "Validation failed"
          [⟨"body.name", "Product name is required"⟩,
            ⟨"body.price", "Price must be a positive number"⟩], false)
    ∧ isEnvelope (runCreateProduct (fun s => leadMatch s.data "http".data) theDB theMeta
        "f" "h" "t" 0
        { name := some (.jstr ""), description := some (.jstr "d"),
          price := some (.jnum (-5)), discount := none,
          image := some (.jstr "http://x"), status := none,
          categoryId := some (.jstr theCatId) }).1 = false := by
  decide

/-- C6 (amended): a syntactically malformed identifier is rejected by
validation before any store access on the *product* routes and on category
*update* (and on the listing `category` query filter) — but the category
get-by-id and delete-by-id routes install no validation middleware, so there
a malformed id reaches the store and surfaces as a cast error (still
reported as a 400 `VALIDATION_ERROR`, but only after the store was hit). -/
theorem c6_malformed_id_routes (urlOk : String → Bool) (db : DB) (meta : ReqMeta)
    (now : ℕ) (freshId hash7 timeStr : String) (id : String)
    (hid : isValidObjectId id = false) :
    runGetProductById db meta id
        = (.mwValidation 400 "Validation failed"
            [⟨"params.id", "Invalid ObjectId format"⟩], false)
      ∧ runDeleteProduct db meta id
          = (.mwValidation 400 "Validation failed"
              [⟨"params.id", "Invalid ObjectId format"⟩], false)
      ∧ (∀ b : RawUpdateBody,
          (runUpdateProduct urlOk db meta now id b).2 = false
            ∧ (runUpdateProduct urlOk db meta now id b).1
                = .mwValidation 400 "Validation failed"
                    (formatIssues (updateProductIssues urlOk id b))
            ∧ (formatIssues (updateProductIssues urlOk id b)).head?
                = some ⟨"params.id", "Invalid ObjectId format"⟩)
      ∧ (∀ b : RawCategoryBody,
          (runUpdateCategoryById db meta now id b).2 = false
            ∧ (runUpdateCategoryById db meta now id b).1
                = .mwValidation 400 "Validation failed"
                    (formatIssues (updateCategoryIssues id b))
            ∧ (formatIssues (updateCategoryIssues id b)).head?
                = some ⟨"params.id", "Invalid ObjectId format"⟩)
      ∧ (∀ b : RawCreateBody, b.categoryId = some (.jstr id) →
          (runCreateProduct urlOk db meta freshId hash7 timeStr now b).2 = false
            ∧ (⟨"body.categoryId", "Invalid ObjectId format"⟩ : ErrDetail)
                ∈ formatIssues (createProductIssues urlOk b))
      ∧ (∀ q : RawQuery, q.category = some id →
          (runGetProducts db meta q).2 = false
            ∧ (runGetCategory db meta q).2 = false
            ∧ (⟨"query.category", "Invalid ObjectId format"⟩ : ErrDetail)
                ∈ formatIssues (paginationIssues q))
      ∧ (¬ id = "" →
          runGetCategoryById db meta id
              = (.envelope (errorHandler (.castError "_id" "ObjectId" id) meta), true)
            ∧ runDeleteCategoryById db meta id
                = (.envelope (errorHandler (.castError "_id" "ObjectId" id) meta), true)
            ∧ (errorHandler (.castError "_id" "ObjectId" id) meta).statusCode = 400
            ∧ (errorHandler (.castError "_id" "ObjectId" id) meta).errType
                = "VALIDATION_ERROR") := by
  have hiss : getProductByIdIssues id = [⟨["params", "id"], "Invalid ObjectId format"⟩] := by
    simp [getProductByIdIssues, zodObjectIdChecks, hid]
  have hupd : ∀ (b : RawUpdateBody) rest,
      updateProductIssues urlOk id b
        = [(⟨["params", "id"], "Invalid ObjectId format"⟩ : ZodIssue)] ++ rest
      → (formatIssues (updateProductIssues urlOk id b)).head?
        = some ⟨"params.id", "Invalid ObjectId format"⟩ := by
    intro b rest h
    rw [h, List.singleton_append, formatIssues, List.map_cons, List.head?_cons]
    rfl
  refine ⟨?_, ?_, ?_, ?_, ?_, ?_, ?_⟩
  · rw [runGetProductById, hiss]; rfl
  · rw [runDeleteProduct, hiss]; rfl
  · intro b
    have h : updateProductIssues urlOk id b
        = [(⟨["params", "id"], "Invalid ObjectId format"⟩ : ZodIssue)]
          ++ (updateProductIssues urlOk id b).tail := by
      rw [updateProductIssues, zodObjectIdChecks, hid]
      simp [updateProductIssues, zodObjectIdChecks, hid]
    have hne : ¬ updateProductIssues urlOk id b = [] := by
      rw [h, List.singleton_append]; simp
    refine ⟨?_, ?_, hupd b _ h⟩
    · rw [runUpdateProduct, validateMw, if_neg hne]
    · rw [runUpdateProduct, validateMw, if_neg hne]
  · intro b
    have h : updateCategoryIssues id b
        = [(⟨["params", "id"], "Invalid ObjectId format"⟩ : ZodIssue)]
          ++ (updateCategoryIssues id b).tail := by
      rw [updateCategoryIssues, zodObjectIdChecks, hid]
      simp [updateCategoryIssues, zodObjectIdChecks, hid]
    have hne : ¬ updateCategoryIssues id b = [] := by
      rw [h, List.singleton_append]; simp
    refine ⟨?_, ?_, ?_⟩
    · rw [runUpdateCategoryById, validateMw, if_neg hne]
    · rw [runUpdateCategoryById, validateMw, if_neg hne]
    · rw [h, List.singleton_append, formatIssues, List.map_cons, List.head?_cons]
      rfl
  · intro b hb
    have hmem : (⟨["body", "categoryId"], "Invalid ObjectId format"⟩ : ZodIssue)
        ∈ createProductIssues urlOk b := by
      rw [createProductIssues, hb]
      simp only [reqField, zodObjectIdChecks, hid]
      simp
    have hne : ¬ createProductIssues urlOk b = [] := by
      intro hc; rw [hc] at hmem; exact absurd hmem (by simp)
    refine ⟨?_, ?_⟩
    · rw [runCreateProduct, validateMw, if_neg hne]
    · exact List.mem_map_of_mem _ hmem
  · intro q hq
    have hmem : (⟨["query", "category"], "Invalid ObjectId format"⟩ : ZodIssue)
        ∈ paginationIssues q := by
      rw [paginationIssues, hq]
      simp only [hid]
      simp
    have hne : ¬ paginationIssues q = [] := by
      intro hc; rw [hc] at hmem; exact absurd hmem (by simp)
    refine ⟨?_, ?_, List.mem_map_of_mem _ hmem⟩
    · rw [runGetProducts, validateMw, if_neg hne]
    · rw [runGetCategory, validateMw, if_neg hne]
  · intro hne
    refine ⟨?_, ?_, rfl, rfl⟩
    · rw [runGetCategoryById, getCategoryById, if_neg hne, categoryFindById]
      simp [hid, pipeCtrl]
    · rw [runDeleteCategoryById, deleteCategoryById, if_neg hne, categoryFindById]
      simp [hid, pipeCtrl]

/-- Witness for C6 (amended) at the malformed id `"xyz"`. -/
theorem c6_malformed_id_routes_witness :
    isValidObjectId "xyz" = false
      ∧ (runGetProductById theDB theMeta "xyz"
            = (.mwValidation 400 "Validation failed"
                [⟨"params.id", "Invalid ObjectId format"⟩], false)
          ∧ runDeleteProduct theDB theMeta "xyz"
              = (.mwValidation 400 "Validation failed"
                  [⟨"params.id", "Invalid ObjectId format"⟩], false)
          ∧ (∀ b : RawUpdateBody,
              (runUpdateProduct (fun s => leadMatch s.data "http".data) theDB theMeta 0 "xyz" b).2
                  = false
                ∧ (runUpdateProduct (fun s => leadMatch s.data "http".data) theDB theMeta 0 "xyz" b).1
                    = .mwValidation 400 "Validation failed"
                        (formatIssues
                          (updateProductIssues (fun s => leadMatch s.data "http".data) "xyz" b))
                ∧ (formatIssues
                    (updateProductIssues (fun s => leadMatch s.data "http".data) "xyz" b)).head?
                    = some ⟨"params.id", "Invalid ObjectId format"⟩)
          ∧ (∀ b : RawCategoryBody,
              (runUpdateCategoryById theDB theMeta 0 "xyz" b).2 = false
                ∧ (runUpdateCategoryById theDB theMeta 0 "xyz" b).1
                    = .mwValidation 400 "Validation failed"
                        (formatIssues (updateCategoryIssues "xyz" b))
                ∧ (formatIssues (updateCategoryIssues "xyz" b)).head?
                    = some ⟨"params.id", "Invalid ObjectId format"⟩)
          ∧ (∀ b : RawCreateBody, b.categoryId = some (.jstr "xyz") →
              (runCreateProduct (fun s => leadMatch s.data "http".data) theDB theMeta
                  "f" "h" "t" 0 b).2 = false
                ∧ (⟨"body.categoryId", "Invalid ObjectId format"⟩ : ErrDetail)
                    ∈ formatIssues
                      (createProductIssues (fun s => leadMatch s.data "http".data) b))
          ∧ (∀ q : RawQuery, q.category = some "xyz" →
              (runGetProducts theDB theMeta q).2 = false
                ∧ (runGetCategory theDB theMeta q).2 = false
                ∧ (⟨"query.category", "Invalid ObjectId format"⟩ : ErrDetail)
                    ∈ formatIssues (paginationIssues q))
          ∧ (¬ "xyz" = "" →
              runGetCategoryById theDB theMeta "xyz"
                  = (.envelope (errorHandler (.castError "_id" "ObjectId" "xyz") theMeta), true)
                ∧ runDeleteCategoryById theDB theMeta "xyz"
                    = (.envelope (errorHandler (.castError "_id" "ObjectId" "xyz") theMeta), true)
                ∧ (errorHandler (.castError "_id" "ObjectId" "xyz") theMeta).statusCode = 400
                ∧ (errorHandler (.castError "_id" "ObjectId" "xyz") theMeta).errType
                    = "VALIDATION_ERROR")) :=
  ⟨by decide,
    c6_malformed_id_routes (fun s => leadMatch s.data "http".data)
      theDB theMeta 0 "f" "h" "t" "xyz" (by decide)⟩

/-- C6 counterexample: `GET /category/xyz` — the malformed id reaches the
store (the tracking flag is `true`) and fails there as a cast error, refuting
"a malformed id never reaches the store layer". -/
theorem c6_counterexample_store_reached :
    (runGetCategoryById theDB theMeta "xyz").2 = true
      ∧ runGetCategoryById theDB theMeta "xyz"
          = (.envelope (errorHandler (.castError "_id" "ObjectId" "xyz") theMeta), true) := by
  decide

def qPage0 : RawQuery := ⟨some "0", none, none, none, none, none, none⟩

def qPage1 : RawQuery := ⟨some "1", none, none, none, none, none, none⟩

def qLimit0 : RawQuery := ⟨none, some "0", none, none, none, none, none⟩

def qLimit10 : RawQuery := ⟨none, some "10", none, none, none, none, none⟩

/-- C10 (amended): `page="0"` and `limit="0"` do pass schema validation (the
digit regex admits `"0"`), but they are *not* replaced by the defaults: the
controller reads the raw query strings (the Zod transform result is
discarded) and `"0"` is a truthy string, so `page || 1` / `limit || 10`
never fire.  `page=0` yields a negative skip, rejected by the store (a 500
response), and `limit=0` yields an unlimited query returning every matching
item with `limit: "0"` echoed — not the default window. -/
theorem c10_zero_not_defaulted (db : DB) (meta : ReqMeta) :
    paginationIssues qPage0 = []
      ∧ paginationIssues qLimit0 = []
      ∧ getProducts db qPage0
          = (.thrown (.mongoBadValue "BadValue: skip value must be non-negative"), true)
      ∧ getCategory db qPage0
          = (.thrown (.mongoBadValue "BadValue: skip value must be non-negative"), true)
      ∧ runGetProducts db meta qPage0
          = (.envelope (errorHandler
              (.mongoBadValue "BadValue: skip value must be non-negative") meta), true)
      ∧ (errorHandler (.mongoBadValue "BadValue: skip value must be non-negative") meta).statusCode
          = 500
      ∧ (∃ r : ProductListResp, getProducts db qLimit0 = (.ok r, true)
          ∧ r.pagination.limit = .str "0"
          ∧ r.pagination.currentPage = .num 1
          ∧ r.data.length = db.products.length) := by
  refine ⟨rfl, rfl, rfl, rfl, rfl, rfl, ?_⟩
  refine ⟨_, rfl, rfl, rfl, ?_⟩
  have hX : (((jsToNum (effVal qLimit0.page 1) : ℤ) - 1)
      * (jsToNum (effVal qLimit0.limit 10) : ℤ)).toNat = 0 := by decide
  have hfil : List.filter (matchesProductFilter qLimit0) db.products = db.products :=
    List.filter_eq_self.mpr (fun a _ => rfl)
  simp only [List.length_map, List.length_drop, length_sortList, hfil, hX, Nat.sub_zero]

/-- Extract the returned item count of a product-listing outcome. -/
def prodRespDataLen : CtrlOut ProductListResp × Bool → Option ℕ
  | (.ok r, _) => some r.data.length
  | _ => none

/-- A store with eleven products in one category. -/
def dbBig : DB :=
  { categories := [theCat],
    products := (List.range 11).map (fun i =>
      { theProd with id := toString i, productCode := toString i, createdAt := i }) }

/-- C10 counterexample: on a store of 11 products, `page="0"` yields a store
error while `page="1"` succeeds with a 10-item window, and `limit="0"`
returns 11 items while `limit="10"` returns 10 — neither pair is "exactly
the same window". -/
theorem c10_counterexample_zero_windows :
    paginationIssues qPage0 = []
      ∧ paginationIssues qLimit0 = []
      ∧ getProducts dbBig qPage0
          = (.thrown (.mongoBadValue "BadValue: skip value must be non-negative"), true)
      ∧ prodRespDataLen (getProducts dbBig qPage0) = none
      ∧ prodRespDataLen (getProducts dbBig qPage1) = some 10
      ∧ prodRespDataLen (getProducts dbBig qLimit0) = some 11
      ∧ prodRespDataLen (getProducts dbBig qLimit10) = some 10
      ∧ ¬ prodRespDataLen (getProducts dbBig qLimit0)
          = prodRespDataLen (getProducts dbBig qLimit10) := by
  decide

/-- Ceiling division `Math.ceil(a / b)` on naturals agrees with the rational ceiling. -/
theorem natCeilDiv_eq_ceil (a b : ℕ) (hb : ¬ b = 0) :
    ((a + b - 1) / b : ℕ) = (⌈(a : ℚ) / (b : ℚ)⌉).toNat := by
  have hb0 : 0 < b := Nat.pos_of_ne_zero hb
  have hbq : (0 : ℚ) < (b : ℚ) := by exact_mod_cast hb0
  have hmod := Nat.div_add_mod (a + b - 1) b
  have hr : (a + b - 1) % b < b := Nat.mod_lt _ hb0
  have hN : b * ((a + b - 1) / b) + (a + b - 1) % b + 1 = a + b := by omega
  have hZ : (b : ℤ) * (((a + b - 1) / b : ℕ) : ℤ) + (((a + b - 1) % b : ℕ) : ℤ) + 1
      = (a : ℤ) + b := by exact_mod_cast hN
  have hrZ : (((a + b - 1) % b : ℕ) : ℤ) < b := by exact_mod_cast hr
  have hceil : ⌈(a : ℚ) / (b : ℚ)⌉ = (((a + b - 1) / b : ℕ) : ℤ) := by
    rw [Int.ceil_eq_iff]
    constructor
    · rw [show ((((a + b - 1) / b : ℕ) : ℤ) : ℚ) - 1
          = ((((a + b - 1) / b : ℕ) : ℤ) - 1 : ℤ) by push_cast; ring]
      rw [lt_div_iff₀ hbq]
      have h : ((((a + b - 1) / b : ℕ) : ℤ) - 1) * (b : ℤ) < (a : ℤ) := by nlinarith [hZ, hrZ]
      exact_mod_cast h
    · rw [div_le_iff₀ hbq]
      have h : (a : ℤ) ≤ (((a + b - 1) / b : ℕ) : ℤ) * (b : ℤ) := by nlinarith [hZ, hrZ]
      exact_mod_cast h
  rw [hceil, Int.toNat_natCast]

/-- C3 (amended): for every listing request that passed validation and whose
effective `limit` is nonzero, a successful response's envelope satisfies
`totalPages = ceil(totalItems / limit)`,
`hasNextPage = (currentPage < totalPages)`, `hasPrevPage = (currentPage > 1)`,
the returned window is `drop ((page-1)·limit)` then `take limit` of the
sorted filtered collection (so at most `limit` items), and `page`/`limit`
default to 1 and 10 when absent — for products and categories alike.  (For
`limit="0"` the store returns everything; see the counterexample.) -/
theorem c3_pagination_envelope (db : DB) (q : RawQuery)
    (hq : paginationIssues q = [])
    (hlim : ¬ jsToNum (effVal q.limit 10) = 0) :
    (∀ r : ProductListResp, getProducts db q = (.ok r, true) →
        r.pagination.totalPages
            = .fin (⌈(r.pagination.totalItems : ℚ)
                / ((jsToNum (effVal q.limit 10) : ℕ) : ℚ)⌉.toNat)
          ∧ r.pagination.hasNextPage
              = decide (jsToNum r.pagination.currentPage
                  < ⌈(r.pagination.totalItems : ℚ)
                      / ((jsToNum (effVal q.limit 10) : ℕ) : ℚ)⌉.toNat)
          ∧ r.pagination.hasPrevPage = decide (1 < jsToNum r.pagination.currentPage)
          ∧ r.data.length ≤ jsToNum (effVal q.limit 10)
          ∧ r.data = (((sortList (productSortLe
                (if q.sortBy.getD "createdAt" = "" then "createdAt"
                  else q.sortBy.getD "createdAt")
                (q.sortOrder.getD "desc" = "asc"))
                (db.products.filter (matchesProductFilter q))).drop
                  ((((jsToNum (effVal q.page 1) : ℕ) : ℤ) - 1)
                    * ((jsToNum (effVal q.limit 10) : ℕ) : ℤ)).toNat).take
                (jsToNum (effVal q.limit 10))).map calculatePricing
          ∧ (q.page = none → r.pagination.currentPage = .num 1)
          ∧ (q.limit = none → r.pagination.limit = .num 10))
      ∧ (∀ r : CategoryListResp, getCategory db q = (.ok r, true) →
          r.pagination.totalPages
              = .fin (⌈(r.pagination.totalItems : ℚ)
                  / ((jsToNum (effVal q.limit 10) : ℕ) : ℚ)⌉.toNat)
            ∧ r.pagination.hasNextPage
                = decide (jsToNum r.pagination.currentPage
                    < ⌈(r.pagination.totalItems : ℚ)
                        / ((jsToNum (effVal q.limit 10) : ℕ) : ℚ)⌉.toNat)
            ∧ r.pagination.hasPrevPage = decide (1 < jsToNum r.pagination.currentPage)
            ∧ r.data.length ≤ jsToNum (effVal q.limit 10)
            ∧ (q.page = none → r.pagination.currentPage = .num 1)
            ∧ (q.limit = none → r.pagination.limit = .num 10)) := by
  constructor
  · intro r hr
    simp only [getProducts] at hr
    split at hr
    · exact absurd hr (by simp)
    · split at hr
      · exact absurd hr (by simp)
      · rename_i window heq
        rw [Prod.mk.injEq, CtrlOut.ok.injEq] at hr
        obtain ⟨hrec, -⟩ := hr
        subst hrec
        rw [mongoWindow] at heq
        by_cases hskip : (((jsToNum (effVal q.page 1) : ℕ) : ℤ) - 1)
            * ((jsToNum (effVal q.limit 10) : ℕ) : ℤ) < 0
        · rw [if_pos hskip] at heq
          exact absurd heq (by simp)
        · rw [if_neg hskip, if_neg hlim, Except.ok.injEq] at heq
          subst heq
          refine ⟨?_, ?_, rfl, ?_, rfl, ?_, ?_⟩
          · show jsCeilDiv _ _ = _
            rw [jsCeilDiv, if_neg hlim, natCeilDiv_eq_ceil _ _ hlim]
          · show jsLtNum _ (jsCeilDiv _ _) = _
            rw [jsCeilDiv, if_neg hlim, natCeilDiv_eq_ceil _ _ hlim]
            rfl
          · show (List.map _ _).length ≤ _
            rw [List.length_map, List.length_take]
            exact Nat.min_le_left _ _
          · intro hpage
            show effVal q.page 1 = .num 1
            rw [hpage]
            rfl
          · intro hlimit
            show effVal q.limit 10 = .num 10
            rw [hlimit]
            rfl
  · intro r hr
    simp only [getCategory] at hr
    split at hr
    · exact absurd hr (by simp)
    · rename_i window heq
      rw [Prod.mk.injEq, CtrlOut.ok.injEq] at hr
      obtain ⟨hrec, -⟩ := hr
      subst hrec
      rw [mongoWindow] at heq
      by_cases hskip : (((jsToNum (effVal q.page 1) : ℕ) : ℤ) - 1)
          * ((jsToNum (effVal q.limit 10) : ℕ) : ℤ) < 0
      · rw [if_pos hskip] at heq
        exact absurd heq (by simp)
      · rw [if_neg hskip, if_neg hlim, Except.ok.injEq] at heq
        subst heq
        refine ⟨?_, ?_, rfl, ?_, ?_, ?_⟩
        · show jsCeilDiv _ _ = _
          rw [jsCeilDiv, if_neg hlim, natCeilDiv_eq_ceil _ _ hlim]
        · show jsLtNum _ (jsCeilDiv _ _) = _
          rw [jsCeilDiv, if_neg hlim, natCeilDiv_eq_ceil _ _ hlim]
          rfl
        · show (List.take _ _).length ≤ _
          rw [List.length_take]
          exact Nat.min_le_left _ _
        · intro hpage
          show effVal q.page 1 = .num 1
          rw [hpage]
          rfl
        · intro hlimit
          show effVal q.limit 10 = .num 10
          rw [hlimit]
          rfl

/-- Witness for C3 on the one-product store with `limit="10"`. -/
theorem c3_pagination_envelope_witness :
    (paginationIssues qLimit10 = [] ∧ ¬ jsToNum (effVal qLimit10.limit 10) = 0)
      ∧ ((∀ r : ProductListResp, getProducts theDB qLimit10 = (.ok r, true) →
          r.pagination.totalPages
              = .fin (⌈(r.pagination.totalItems : ℚ)
                  / ((jsToNum (effVal qLimit10.limit 10) : ℕ) : ℚ)⌉.toNat)
            ∧ r.pagination.hasNextPage
                = decide (jsToNum r.pagination.currentPage
                    < ⌈(r.pagination.totalItems : ℚ)
                        / ((jsToNum (effVal qLimit10.limit 10) : ℕ) : ℚ)⌉.toNat)
            ∧ r.pagination.hasPrevPage = decide (1 < jsToNum r.pagination.currentPage)
            ∧ r.data.length ≤ jsToNum (effVal qLimit10.limit 10)
            ∧ r.data = (((sortList (productSortLe
                  (if qLimit10.sortBy.getD "createdAt" = "" then "createdAt"
                    else qLimit10.sortBy.getD "createdAt")
                  (qLimit10.sortOrder.getD "desc" = "asc"))
                  (theDB.products.filter (matchesProductFilter qLimit10))).drop
                    ((((jsToNum (effVal qLimit10.page 1) : ℕ) : ℤ) - 1)
                      * ((jsToNum (effVal qLimit10.limit 10) : ℕ) : ℤ)).toNat).take
                  (jsToNum (effVal qLimit10.limit 10))).map calculatePricing
            ∧ (qLimit10.page = none → r.pagination.currentPage = .num 1)
            ∧ (qLimit10.limit = none → r.pagination.limit = .num 10))
        ∧ (∀ r : CategoryListResp, getCategory theDB qLimit10 = (.ok r, true) →
            r.pagination.totalPages
                = .fin (⌈(r.pagination.totalItems : ℚ)
                    / ((jsToNum (effVal qLimit10.limit 10) : ℕ) : ℚ)⌉.toNat)
              ∧ r.pagination.hasNextPage
                  = decide (jsToNum r.pagination.currentPage
                      < ⌈(r.pagination.totalItems : ℚ)
                          / ((jsToNum (effVal qLimit10.limit 10) : ℕ) : ℚ)⌉.toNat)
              ∧ r.pagination.hasPrevPage = decide (1 < jsToNum r.pagination.currentPage)
              ∧ r.data.length ≤ jsToNum (effVal qLimit10.limit 10)
              ∧ (qLimit10.page = none → r.pagination.currentPage = .num 1)
              ∧ (qLimit10.limit = none → r.pagination.limit = .num 10))) :=
  ⟨⟨by decide, by decide⟩, c3_pagination_envelope theDB qLimit10 (by decide) (by decide)⟩

/-- Extract the `totalPages` of a product-listing outcome. -/
def prodRespTotalPages : CtrlOut ProductListResp × Bool → Option JNum
  | (.ok r, _) => some r.pagination.totalPages
  | _ => none

/-- C3 counterexample: the validated request `limit="0"` succeeds yet returns
11 items (more than its limit, 0) and `totalPages = Infinity` — the envelope
equations fail, so the claim does not hold for *every* listing request. -/
theorem c3_counterexample_limit_zero :
    paginationIssues qLimit0 = []
      ∧ prodRespDataLen (getProducts dbBig qLimit0) = some 11
      ∧ jsToNum (effVal qLimit0.limit 10) = 0
      ∧ ¬ (11 ≤ jsToNum (effVal qLimit0.limit 10))
      ∧ prodRespTotalPages (getProducts dbBig qLimit0) = some .inf := by
  decide
